import Mathlib

/-!
node-zopfli: the native binding `src/zopfli.cc`.

A shallow embedding of the two functions of the binding, `parseOptions` and
`Deflate`, together with the part of the V8 / node / zopfli interfaces they
call.  JavaScript values are a small algebraic datatype; the effects of
`Deflate` (a scheduled exception, the engine call, the callback call) are
returned as a list of events in program order.
-/

namespace Zopfli

/-! ## External types -/

/-- Modelled from the spec: the enum `ZopfliFormat` of `zopfli.h`, which is not
part of the binding's source.  The spec's closed enumeration ContainerFormat
{Deflate, Gzip, Zlib}, under the constant names the source uses. -/
inductive ZopfliFormat where
  | ZOPFLI_FORMAT_GZIP
  | ZOPFLI_FORMAT_ZLIB
  | ZOPFLI_FORMAT_DEFLATE
  deriving DecidableEq, Repr

/-- Modelled from the spec: the struct `ZopfliOptions` of `zopfli.h`, which is
not part of the binding's source.  The spec's CompressionOptions record with
its six fields in declaration order.  The fields are C `int`s: the source
stores `? 1 : 0` in the boolean ones and an int32 in the other two. -/
structure ZopfliOptions where
  verbose : Int
  verbose_more : Int
  numiterations : Int
  blocksplitting : Int
  blocksplittinglast : Int
  blocksplittingmax : Int
  deriving DecidableEq, Repr

/-! ## JavaScript values as V8 classifies them -/

/-- What kind of object a JavaScript object is: a plain object, a function,
a node `Buffer` with its bytes, or a `TypeError` with its message. -/
inductive ObjectKind where
  | plain
  | function
  | buffer (data : List Nat)
  | typeError (message : String)
  deriving DecidableEq, Repr

/-- The numbers that have no value of their own among the rationals: negative
zero, NaN and the two infinities. -/
inductive SpecialNumber where
  | negativeZero
  | nan
  | positiveInfinity
  | negativeInfinity
  deriving DecidableEq, Repr

/-- A JavaScript value.  A finite number other than negative zero is
`number q` with its exact rational value `q` (so `number 0` is positive zero);
the other numbers are `special`.  A string is its list of UTF-16 code units;
an object carries its kind and the properties that `Get` finds on it (own or
inherited), as an association list. -/
inductive Value where
  | undefined
  | null
  | boolean (b : Bool)
  | number (q : ℚ)
  | special (s : SpecialNumber)
  | string (units : List Nat)
  | object (kind : ObjectKind) (props : List (String × Value))

namespace Value

/-- `Value::IsUndefined()`. -/
def IsUndefined : Value → Bool
  | undefined => true
  | _ => false

/-- `Value::IsNull()`. -/
def IsNull : Value → Bool
  | null => true
  | _ => false

/-- `Value::IsBoolean()`: a primitive boolean. -/
def IsBoolean : Value → Bool
  | boolean _ => true
  | _ => false

/-- `Value::IsString()`: a primitive string. -/
def IsString : Value → Bool
  | string _ => true
  | _ => false

/-- `Value::IsObject()`: any object, functions and buffers included. -/
def IsObject : Value → Bool
  | object _ _ => true
  | _ => false

/-- `Value::IsFunction()`. -/
def IsFunction : Value → Bool
  | object ObjectKind.function _ => true
  | _ => false

/-- `Value::IsInt32()`: a number whose value is integral and lies in
`[-2^31, 2^31 - 1]`, negative zero excepted: V8 answers false on -0, as on
NaN and the infinities. -/
def IsInt32 : Value → Bool
  | number q => q.den == 1 && decide (-2147483648 ≤ q.num) && decide (q.num ≤ 2147483647)
  | _ => false

/-- `ToBoolean()->Value()`: JavaScript truthiness. -/
def ToBoolean : Value → Bool
  | undefined => false
  | null => false
  | boolean b => b
  | number q => decide (q ≠ 0)
  | special SpecialNumber.negativeZero => false
  | special SpecialNumber.nan => false
  | special _ => true
  | string units => !units.isEmpty
  | object _ _ => true

/-- ECMAScript ToInt32 on a rational: truncate toward zero, then wrap modulo
`2^32` into the signed 32-bit range. -/
def wrapInt32 (q : ℚ) : Int :=
  let t : Int := if 0 ≤ q.num then q.num / q.den else -((-q.num) / q.den)
  let m : Int := t % 4294967296
  if 2147483648 ≤ m then m - 4294967296 else m

/-- `ToInt32()->Value()`.  Exact on numbers (0 on negative zero, NaN and the
infinities), booleans, undefined and null.
The string-to-number and object-to-primitive conversions are not modelled
(the definition gives 0 there); `parseOptions` converts only values for
which `IsInt32` holds, which are numbers. -/
def ToInt32 : Value → Int
  | number q => wrapInt32 q
  | boolean b => if b then 1 else 0
  | _ => 0

/-- `ToString()` of a value, as UTF-16 code units.  Exact on strings (the
identity); the conversion of other values is not modelled (empty string
there); `Deflate` converts only values for which `IsString` holds. -/
def ToString : Value → List Nat
  | string units => units
  | _ => []

/-- `ToObject()`: the object of a value, `none` for the empty handle that V8
returns on undefined and null (where the conversion throws).  An object is
itself; a primitive gives a wrapper object, which is no function and no
buffer and is modelled without properties. -/
def ToObject : Value → Option Value
  | undefined => none
  | null => none
  | object kind props => some (object kind props)
  | _ => some (object ObjectKind.plain [])

/-- `Object::Get(key)`: the property found under `key`, `undefined` when there
is none.  Property accessors with side effects are not modelled. -/
def Get : Value → String → Value
  | object _ props, key => (props.lookup key).getD undefined
  | _, _ => undefined

/-- `Exception::TypeError(String::New(message))`. -/
def TypeError (message : String) : Value :=
  object (ObjectKind.typeError message) []

/-- The JavaScript string with the given ASCII text. -/
def ofText (s : String) : Value :=
  string (s.toList.map Char.toNat)

end Value

/-- The bytes of a C string literal. -/
def cBytes (s : String) : List Nat :=
  s.toList.map Char.toNat

/-- `*String::AsciiValue(str)` of the V8 API: the character buffer that V8
fills with `String::WriteAscii`, before its terminating NUL.  Every UTF-16
code unit is cast to `char` (its low byte) and a resulting NUL byte is written
as a space, so the buffer holds no NUL before the terminator. -/
def AsciiValue (units : List Nat) : List Nat :=
  units.map fun c => if c % 256 = 0 then 32 else c % 256

/-- `std::string(const char*)`: the bytes of the NUL-terminated buffer up to,
not including, the first NUL. -/
def std_string (buffer : List Nat) : List Nat :=
  (buffer ++ [0]).takeWhile fun b => b != 0

/-- `Buffer::HasInstance(value)`. -/
def Buffer.HasInstance : Value → Bool
  | Value.object (ObjectKind.buffer _) _ => true
  | _ => false

/-- `Buffer::Data` together with `Buffer::Length` on an object: the bytes of
a buffer, no bytes for an object that is no buffer.  The result is used only
in the engine call, which is reached only when the first argument passed
`Buffer::HasInstance`. -/
def Buffer.Data : Value → List Nat
  | Value.object (ObjectKind.buffer data) _ => data
  | _ => []

/-- `Buffer::New(data, size)->handle_`: a fresh buffer object. -/
def Buffer.New (data : List Nat) : Value :=
  Value.object (ObjectKind.buffer data) []

/-- `args[i]` of `v8::Arguments`: the i-th argument, `undefined` when `i` is
negative or not below `args.Length()`. -/
def argAt (args : List Value) (i : Int) : Value :=
  if i < 0 then Value.undefined else args.getD i.toNat Value.undefined

/-! ## `parseOptions` (lines 13-101) -/

/-- `parseOptions(options, zopfli_options)`: returns the handle `error` and
the record `zopfli_options`, which the source updates through a reference. -/
def parseOptions (options : Value) (zopfli_options : ZopfliOptions) :
    Value × ZopfliOptions :=
  let error := Value.null
  -- verbose
  let fieldValue := options.Get "verbose"
  let (error, zopfli_options) :=
    if !fieldValue.IsUndefined && !fieldValue.IsNull then
      if fieldValue.IsBoolean then
        (error, { zopfli_options with verbose := if fieldValue.ToBoolean then 1 else 0 })
      else
        (Value.TypeError "Wrong type for option 'verbose'", zopfli_options)
    else (error, zopfli_options)
  -- verbose_more
  let fieldValue := options.Get "verbose_more"
  let (error, zopfli_options) :=
    if error.IsNull && !fieldValue.IsUndefined && !fieldValue.IsNull then
      if fieldValue.IsBoolean then
        (error, { zopfli_options with verbose_more := if fieldValue.ToBoolean then 1 else 0 })
      else
        (Value.TypeError "Wrong type for option 'verbose_more'", zopfli_options)
    else (error, zopfli_options)
  -- numiterations
  let fieldValue := options.Get "numiterations"
  let (error, zopfli_options) :=
    if error.IsNull && !fieldValue.IsUndefined && !fieldValue.IsNull then
      if fieldValue.IsInt32 then
        (error, { zopfli_options with numiterations := fieldValue.ToInt32 })
      else
        (Value.TypeError "Wrong type for option 'numiterations'", zopfli_options)
    else (error, zopfli_options)
  -- blocksplitting
  let fieldValue := options.Get "blocksplitting"
  let (error, zopfli_options) :=
    if error.IsNull && !fieldValue.IsUndefined && !fieldValue.IsNull then
      if fieldValue.IsBoolean then
        (error, { zopfli_options with blocksplitting := if fieldValue.ToBoolean then 1 else 0 })
      else
        (Value.TypeError "Wrong type for option 'blocksplitting'", zopfli_options)
    else (error, zopfli_options)
  -- blocksplittinglast
  let fieldValue := options.Get "blocksplittinglast"
  let (error, zopfli_options) :=
    if error.IsNull && !fieldValue.IsUndefined && !fieldValue.IsNull then
      if fieldValue.IsBoolean then
        (error, { zopfli_options with
                    blocksplittinglast := if fieldValue.ToBoolean then 1 else 0 })
      else
        (Value.TypeError "Wrong type for option 'blocksplittinglast'", zopfli_options)
    else (error, zopfli_options)
  -- blocksplittingmax
  let fieldValue := options.Get "blocksplittingmax"
  let (error, zopfli_options) :=
    if error.IsNull && !fieldValue.IsUndefined && !fieldValue.IsNull then
      if fieldValue.IsInt32 then
        (error, { zopfli_options with blocksplittingmax := fieldValue.ToInt32 })
      else
        (Value.TypeError "Wrong type for option 'blocksplittingmax'", zopfli_options)
    else (error, zopfli_options)
  (error, zopfli_options)

/-! ## `Deflate` (lines 103-167) -/

/-- An effect of `Deflate` that the host or the engine observes. -/
inductive Event where
  /-- The process dies on the dereference of an empty handle: nothing
  follows. -/
  | crash
  /-- `ThrowException(exception)`. -/
  | throw (exception : Value)
  /-- `ZopfliCompress(&options, format, in, insize, &out, &outsize)`. -/
  | engine (options : ZopfliOptions) (format : ZopfliFormat) (input : List Nat)
  /-- `callee->Call(global, argc, argv)`. -/
  | call (callee : Value) (argv : List Value)

/-- `Deflate(args)`.  `ZopfliCompress` is the external engine, as the function
from its three inputs to the bytes it returns in `out`; `zopfli_options` is
what the storage of the uninitialised local `ZopfliOptions zopfli_options;`
(line 140) holds when the function is entered.  The result is the list of
effects in program order; the function returns `undefined` unless the process
dies.  Lines 118-120 run whatever the first argument is: when it is undefined
or null (also with no argument at all) `ToObject()` is an empty handle,
`Buffer::Length` dereferences it and the process dies there, before any
callback call. -/
def Deflate (ZopfliCompress : ZopfliOptions → ZopfliFormat → List Nat → List Nat)
    (zopfli_options : ZopfliOptions) (args : List Value) : List Event :=
  let Length : Int := args.length
  let error := Value.null
  if Length ≥ 1 && !(argAt args (Length - 1)).IsFunction then
    [Event.throw (Value.TypeError "Last argument must be a callback function")]
  else
    let callback := argAt args (Length - 1)
    let error :=
      if Length < 1 || !Buffer.HasInstance (argAt args 0) then
        Value.TypeError "First argument must be a buffer"
      else error
    let inbuffer := argAt args 0
    match inbuffer.ToObject with
    | none => [Event.crash]
    | some inbufferobject =>
      let inbufferdata := Buffer.Data inbufferobject
      let format := ZopfliFormat.ZOPFLI_FORMAT_DEFLATE
      let (format, error) :=
        if error.IsNull then
          if Length ≥ 2 && (argAt args 1).IsString then
            let given_format := std_string (AsciiValue (argAt args 1).ToString)
            if given_format = cBytes "gzip" then
              (ZopfliFormat.ZOPFLI_FORMAT_GZIP, error)
            else if given_format = cBytes "zlib" then
              (ZopfliFormat.ZOPFLI_FORMAT_ZLIB, error)
            else if given_format = cBytes "deflate" then
              (ZopfliFormat.ZOPFLI_FORMAT_DEFLATE, error)
            else
              (format, Value.TypeError "Invalid format")
          else
            (format, Value.TypeError "Second argument must be a string")
        else (format, error)
      let (error, zopfli_options) :=
        if error.IsNull then
          if Length ≥ 3 && (argAt args 2).IsObject then
            parseOptions (argAt args 2) zopfli_options
          else
            (Value.TypeError "Third argument must be an object", zopfli_options)
        else (error, zopfli_options)
      if !error.IsNull then
        [Event.call callback [error]]
      else
        let out := ZopfliCompress zopfli_options format inbufferdata
        [Event.engine zopfli_options format inbufferdata,
         Event.call callback [Value.null, Buffer.New out]]

/-! ## Vocabulary of the specification -/

/-- The two declared types of an option field. -/
inductive OptionType where
  | boolean
  | int32
  deriving DecidableEq, Repr

/-- The six recognized keys in declaration order, each with its declared
type. -/
def optionTable : List (String × OptionType) :=
  [("verbose", OptionType.boolean),
   ("verbose_more", OptionType.boolean),
   ("numiterations", OptionType.int32),
   ("blocksplitting", OptionType.boolean),
   ("blocksplittinglast", OptionType.boolean),
   ("blocksplittingmax", OptionType.int32)]

/-- The type test the binding applies for a declared type. -/
def hasType : OptionType → Value → Bool
  | OptionType.boolean, v => v.IsBoolean
  | OptionType.int32, v => v.IsInt32

/-- A value that is present (neither undefined nor null) and fails the type
test `isType`. -/
def wrongValue (isType : Value → Bool) (v : Value) : Bool :=
  !v.IsUndefined && !v.IsNull && !isType v

/-- A value that is present (neither undefined nor null) and passes the type
test `isType`. -/
def rightValue (isType : Value → Bool) (v : Value) : Bool :=
  !v.IsUndefined && !v.IsNull && isType v

/-- The option map holds a present value of the wrong type under the key of
the table entry. -/
def wrongType (options : Value) (entry : String × OptionType) : Bool :=
  wrongValue (hasType entry.2) (options.Get entry.1)

/-- The message of the option error for a key. -/
def wrongTypeMessage (name : String) : String :=
  "Wrong type for option '" ++ name ++ "'"

/-- The numeric value of a number: the rational of a finite number, zero for
negative zero; none for NaN, the infinities and the values that are no
number. -/
def numericValue : Value → Option ℚ
  | Value.number q => some q
  | Value.special SpecialNumber.negativeZero => some 0
  | _ => none

/-- A value of the declared type as the claim words it: a primitive boolean,
or any number with an integral value in the int32 range. -/
def DeclaredTypeAsWorded : OptionType → Value → Prop
  | OptionType.boolean, v => ∃ b : Bool, v = Value.boolean b
  | OptionType.int32, v =>
      ∃ n : Int, -2147483648 ≤ n ∧ n ≤ 2147483647 ∧ numericValue v = some (n : ℚ)

/-- A value of the declared type, as the binding tests it: a primitive
boolean, or a number other than negative zero with an integral value in the
int32 range. -/
def DeclaredType : OptionType → Value → Prop
  | OptionType.boolean, v => ∃ b : Bool, v = Value.boolean b
  | OptionType.int32, v =>
      ∃ n : Int, -2147483648 ≤ n ∧ n ≤ 2147483647 ∧ v = Value.number (n : ℚ)

/-- An option value the validator accepts: undefined, null, or of the declared
type as the binding tests it. -/
def Acceptable (t : OptionType) (v : Value) : Prop :=
  v = Value.undefined ∨ v = Value.null ∨ DeclaredType t v

/-- The format that lines 125-134 select for a format string given by its code
units: `given_format` is the `std::string` built from the string's
`AsciiValue`, compared with the three tokens in the order gzip, zlib, deflate;
`none` where the source sets the "Invalid format" error. -/
def resolveFormat (units : List Nat) : Option ZopfliFormat :=
  let given_format := std_string (AsciiValue units)
  if given_format = cBytes "gzip" then some ZopfliFormat.ZOPFLI_FORMAT_GZIP
  else if given_format = cBytes "zlib" then some ZopfliFormat.ZOPFLI_FORMAT_ZLIB
  else if given_format = cBytes "deflate" then some ZopfliFormat.ZOPFLI_FORMAT_DEFLATE
  else none

/-- The message of the first check that fails, in the order of the
specification: (1) the first argument is a buffer, (2) the second argument is
a string, (3) the string resolves to a format, (4) the third argument is an
object, (5) the six option fields in declaration order; `none` when every
check passes. -/
def firstFailure (args : List Value) : Option String :=
  if !Buffer.HasInstance (argAt args 0) then some "First argument must be a buffer"
  else if !(argAt args 1).IsString then some "Second argument must be a string"
  else if (resolveFormat (argAt args 1).ToString).isNone then some "Invalid format"
  else if !(argAt args 2).IsObject then some "Third argument must be an object"
  else (optionTable.find? (wrongType (argAt args 2))).map fun e => wrongTypeMessage e.1

/-- The message of the first check that fails, with check (3) as the claim
words it: the string is, code unit for code unit, one of the three format
tokens. -/
def firstFailureAsWorded (args : List Value) : Option String :=
  if !Buffer.HasInstance (argAt args 0) then some "First argument must be a buffer"
  else if !(argAt args 1).IsString then some "Second argument must be a string"
  else if (argAt args 1).ToString ∉ [cBytes "gzip", cBytes "zlib", cBytes "deflate"] then
    some "Invalid format"
  else if !(argAt args 2).IsObject then some "Third argument must be an object"
  else (optionTable.find? (wrongType (argAt args 2))).map fun e => wrongTypeMessage e.1

/-- The textual token of a container format. -/
def formatToken : ZopfliFormat → String
  | ZopfliFormat.ZOPFLI_FORMAT_GZIP => "gzip"
  | ZopfliFormat.ZOPFLI_FORMAT_ZLIB => "zlib"
  | ZopfliFormat.ZOPFLI_FORMAT_DEFLATE => "deflate"

/-- What `Deflate` does once the format is resolved (lines 140-166) in a call
whose third argument is an object: the option error goes to the callback, or
the engine runs on the parsed record and its output goes to the callback
after an explicit null. -/
def completion (ZopfliCompress : ZopfliOptions → ZopfliFormat → List Nat → List Nat)
    (parsed : Value × ZopfliOptions) (format : ZopfliFormat) (input : List Nat)
    (callback : Value) : List Event :=
  if !parsed.1.IsNull then [Event.call callback [parsed.1]]
  else
    [Event.engine parsed.2 format input,
     Event.call callback [Value.null, Buffer.New (ZopfliCompress parsed.2 format input)]]

/-- One field of `parseOptions`, the shape the six blocks of the source share:
the type test, the error message, the assignment, the field value read from
the option map, and the state (error, record) before the block. -/
def fieldStep (isType : Value → Bool) (message : String)
    (store : ZopfliOptions → Value → ZopfliOptions)
    (fieldValue : Value) (st : Value × ZopfliOptions) : Value × ZopfliOptions :=
  if st.1.IsNull && !fieldValue.IsUndefined && !fieldValue.IsNull then
    if isType fieldValue then (st.1, store st.2 fieldValue)
    else (Value.TypeError message, st.2)
  else st

/-- The record field at a declaration position, 0 for verbose up to 5 for
blocksplittingmax. -/
def fieldAt : Nat → ZopfliOptions → Int
  | 0, r => r.verbose
  | 1, r => r.verbose_more
  | 2, r => r.numiterations
  | 3, r => r.blocksplitting
  | 4, r => r.blocksplittinglast
  | 5, r => r.blocksplittingmax
  | _, _ => 0

/-- The integer the source assigns to a field of the declared type from a
value: 1 or 0 from `ToBoolean()->Value()`, or `ToInt32()->Value()`. -/
def storedValue : OptionType → Value → Int
  | OptionType.boolean, v => if v.ToBoolean then 1 else 0
  | OptionType.int32, v => v.ToInt32

/-- An event that is a call of the engine. -/
def isEngineCall : Event → Bool
  | Event.engine _ _ _ => true
  | _ => false

/-- The number of engine calls among the effects. -/
def engineCalls (events : List Event) : Nat :=
  events.countP isEngineCall

/-- An event that is a thrown exception or a callback call with the error as
its only argument. -/
def isThrowOrFailure : Event → Bool
  | Event.throw _ => true
  | Event.call _ [_] => true
  | _ => false

/-- Every validation passes: the last argument exists and is a function, and
no check of `firstFailure` fails. -/
def allChecksPass (args : List Value) : Bool :=
  (match args.getLast? with
    | some callback => callback.IsFunction
    | none => false) && (firstFailure args).isNone

/-! ## Sample inputs -/

/-- An engine used to evaluate the model: it returns its input. -/
def storeEngine : ZopfliOptions → ZopfliFormat → List Nat → List Nat :=
  fun _ _ input => input

/-- A record whose six fields are zero. -/
def zeroOptions : ZopfliOptions := ⟨0, 0, 0, 0, 0, 0⟩

/-- A callback function without properties. -/
def plainCallback : Value := Value.object ObjectKind.function []

/-- The empty option object. -/
def emptyObject : Value := Value.object ObjectKind.plain []

/-- The option map of scenario D, with further keys around the offending one:
a wrong-typed blocksplittingmax, a wrong-typed blocksplitting, a well-typed
verbose. -/
def scenarioD : Value :=
  Value.object ObjectKind.plain
    [("blocksplittingmax", Value.ofText "many"), ("numiterations", Value.ofText "fast"),
     ("verbose", Value.boolean true), ("blocksplitting", Value.number 1)]

/-- An option map with well-typed values, a null and absent keys. -/
def goodOptions : Value :=
  Value.object ObjectKind.plain
    [("verbose", Value.boolean true), ("numiterations", Value.number 5),
     ("blocksplitting", Value.boolean false), ("blocksplittingmax", Value.null)]

/-- The option map with the single key `name` holding `v`. -/
def singleOption (name : String) (v : Value) : Value :=
  Value.object ObjectKind.plain [(name, v)]

/-- A callback function that carries the property numiterations = "fast". -/
def fastCallback : Value :=
  Value.object ObjectKind.function [("numiterations", Value.ofText "fast")]

/-- The format string of the four code units U+0167 (a barred t), z, i, p. -/
def barredToken : List Nat := [359, 122, 105, 112]

/-- The format string "gzip", a NUL character, "x". -/
def nulToken : List Nat := [103, 122, 105, 112, 0, 120]

/-- An option map with a well-typed verbose before the wrong-typed
numiterations and a well-typed blocksplittingmax after it. -/
def partialOptions : Value :=
  Value.object ObjectKind.plain
    [("verbose", Value.boolean true), ("numiterations", Value.ofText "fast"),
     ("blocksplittingmax", Value.number 7)]

/-- The option map `goodOptions` with two unrecognized keys added. -/
def extraOptions : Value :=
  Value.object ObjectKind.plain
    [("level", Value.ofText "high"), ("verbose", Value.boolean true),
     ("numiterations", Value.number 5), ("blocksplitting", Value.boolean false),
     ("iterations", Value.number 3), ("blocksplittingmax", Value.null)]

/-- A deterministic engine whose output depends on the record: it puts
blocksplittingmax in front of the input. -/
def optionEngine : ZopfliOptions → ZopfliFormat → List Nat → List Nat :=
  fun options _ input => options.blocksplittingmax.toNat :: input

/-- The record of the defaults that the comments of the source document:
blocksplitting 1, blocksplittinglast 0, blocksplittingmax 15. -/
def documentedDefaults : ZopfliOptions := ⟨0, 0, 15, 1, 0, 15⟩

/-- A four-argument call that passes every check: the buffer 1, 2, 3, the
format "zlib", the options blocksplittingmax = 9, and a callback. -/
def zlibCall : List Value :=
  [Buffer.New [1, 2, 3], Value.ofText "zlib",
   Value.object ObjectKind.plain [("blocksplittingmax", Value.number 9)], plainCallback]

/-- The number negative zero. -/
def negativeZero : Value := Value.special SpecialNumber.negativeZero

/-- The number one half. -/
def oneHalf : ℚ := ⟨1, 2, by decide, by decide⟩

/-! ## Lemmas on the embedding -/

open Value

theorem isNull_TypeError (m : String) : (Value.TypeError m).IsNull = false := rfl

/-- The source's six blocks are six instances of `fieldStep`, composed in
declaration order from the state (null, record). -/
theorem parseOptions_steps (o : Value) (z : ZopfliOptions) :
    parseOptions o z =
      fieldStep IsInt32 "Wrong type for option 'blocksplittingmax'"
        (fun r v => { r with blocksplittingmax := v.ToInt32 }) (o.Get "blocksplittingmax")
      (fieldStep IsBoolean "Wrong type for option 'blocksplittinglast'"
        (fun r v => { r with blocksplittinglast := if v.ToBoolean then 1 else 0 })
        (o.Get "blocksplittinglast")
      (fieldStep IsBoolean "Wrong type for option 'blocksplitting'"
        (fun r v => { r with blocksplitting := if v.ToBoolean then 1 else 0 })
        (o.Get "blocksplitting")
      (fieldStep IsInt32 "Wrong type for option 'numiterations'"
        (fun r v => { r with numiterations := v.ToInt32 }) (o.Get "numiterations")
      (fieldStep IsBoolean "Wrong type for option 'verbose_more'"
        (fun r v => { r with verbose_more := if v.ToBoolean then 1 else 0 })
        (o.Get "verbose_more")
      (fieldStep IsBoolean "Wrong type for option 'verbose'"
        (fun r v => { r with verbose := if v.ToBoolean then 1 else 0 })
        (o.Get "verbose") (Value.null, z)))))) := by
  rfl

/-- The error after a block: the block's own error when the state had none and
the value is wrong-typed, the incoming error otherwise. -/
theorem fieldStep_fst (isType : Value → Bool) (m : String)
    (store : ZopfliOptions → Value → ZopfliOptions) (v : Value)
    (st : Value × ZopfliOptions) :
    (fieldStep isType m store v st).1 =
      if st.1.IsNull && wrongValue isType v then Value.TypeError m else st.1 := by
  unfold fieldStep wrongValue
  cases st.1.IsNull <;> cases v.IsUndefined <;> cases v.IsNull <;> cases isType v <;> simp

/-- The record after a block: the assignment happens when the state had no
error and the value is present and well-typed. -/
theorem fieldStep_snd (isType : Value → Bool) (m : String)
    (store : ZopfliOptions → Value → ZopfliOptions) (v : Value)
    (st : Value × ZopfliOptions) :
    (fieldStep isType m store v st).2 =
      if st.1.IsNull && rightValue isType v then store st.2 v else st.2 := by
  unfold fieldStep rightValue
  cases st.1.IsNull <;> cases v.IsUndefined <;> cases v.IsNull <;> cases isType v <;> simp


theorem hasType_boolean : hasType OptionType.boolean = IsBoolean := by
  funext v; rfl

theorem hasType_int32 : hasType OptionType.int32 = IsInt32 := by
  funext v; rfl

/-- The error `parseOptions` returns: the option error of the first table entry
whose value is wrong-typed, null when there is none. -/
theorem parseOptions_error (o : Value) (z : ZopfliOptions) :
    (parseOptions o z).1 =
      match optionTable.find? (wrongType o) with
      | some e => Value.TypeError (wrongTypeMessage e.1)
      | none => Value.null := by
  rw [parseOptions_steps]
  simp only [fieldStep_fst, optionTable, List.find?, wrongType, hasType_boolean, hasType_int32]
  cases wrongValue IsBoolean (o.Get "verbose") <;>
  cases wrongValue IsBoolean (o.Get "verbose_more") <;>
  cases wrongValue IsInt32 (o.Get "numiterations") <;>
  cases wrongValue IsBoolean (o.Get "blocksplitting") <;>
  cases wrongValue IsBoolean (o.Get "blocksplittinglast") <;>
  cases wrongValue IsInt32 (o.Get "blocksplittingmax") <;>
  rfl

/-- `IsInt32` holds exactly of the numbers that are an integer of the int32
range. -/
theorem isInt32_iff (v : Value) :
    v.IsInt32 = true ↔
      ∃ n : Int, -2147483648 ≤ n ∧ n ≤ 2147483647 ∧ v = Value.number (n : ℚ) := by
  cases v with
  | number q =>
    simp only [Value.IsInt32, Bool.and_eq_true, beq_iff_eq, decide_eq_true_eq,
      Value.number.injEq]
    constructor
    · rintro ⟨⟨hd, hlo⟩, hhi⟩
      exact ⟨q.num, hlo, hhi, (Rat.coe_int_num_of_den_eq_one hd).symm⟩
    · rintro ⟨n, hlo, hhi, rfl⟩
      simp [hlo, hhi]
  | _ => simp [Value.IsInt32]

/-- On an integer of the int32 range `ToInt32` is the identity. -/
theorem toInt32_intCast (n : Int) (hlo : -2147483648 ≤ n) (hhi : n ≤ 2147483647) :
    (Value.number (n : ℚ)).ToInt32 = n := by
  simp only [Value.ToInt32, Value.wrapInt32, Rat.intCast_num, Rat.intCast_den]
  have h1 : n / ((1 : Nat) : Int) = n := by simp
  have h2 : -n / ((1 : Nat) : Int) = -n := by simp
  rw [h1, h2]
  simp only [neg_neg, ite_self]
  split <;> omega

/-- A value is not wrong-typed exactly when the specification accepts it. -/
theorem wrongValue_false_iff (t : OptionType) (v : Value) :
    wrongValue (hasType t) v = false ↔ Acceptable t v := by
  cases t with
  | boolean =>
    rw [hasType_boolean]
    cases v <;> simp [wrongValue, Acceptable, DeclaredType, Value.IsUndefined, Value.IsNull,
      Value.IsBoolean]
  | int32 =>
    rw [hasType_int32]
    show wrongValue IsInt32 v = false ↔ v = Value.undefined ∨ v = Value.null ∨
      ∃ n : Int, -2147483648 ≤ n ∧ n ≤ 2147483647 ∧ v = Value.number (n : ℚ)
    rw [← isInt32_iff]
    cases v <;> simp [wrongValue, Value.IsUndefined, Value.IsNull, Value.IsInt32]


/-- No entry of the table is wrong-typed exactly when `parseOptions` returns
no error. -/
theorem parseOptions_null_iff (o : Value) (z : ZopfliOptions) :
    (parseOptions o z).1 = Value.null ↔ ∀ e ∈ optionTable, wrongType o e = false := by
  rw [parseOptions_error]
  cases h : optionTable.find? (wrongType o) with
  | none =>
    simp only [true_iff]
    intro e he
    have := List.find?_eq_none.mp h e he
    simpa using this
  | some e =>
    have hw : wrongType o e = true := List.find?_some h
    have hm : e ∈ optionTable := List.mem_of_find?_eq_some h
    constructor
    · intro hc
      exact absurd hc (by simp [Value.TypeError])
    · intro hall
      rw [hall e hm] at hw
      exact absurd hw (by simp)

/-- The record `parseOptions` returns when no entry is wrong-typed: each field
is assigned when its value is present and well-typed and keeps its value
otherwise. -/
theorem parseOptions_record_of_null (o : Value) (z : ZopfliOptions)
    (h : (parseOptions o z).1 = Value.null) :
    (parseOptions o z).2 =
      { verbose :=
          if rightValue IsBoolean (o.Get "verbose") then
            (if (o.Get "verbose").ToBoolean then 1 else 0) else z.verbose
        verbose_more :=
          if rightValue IsBoolean (o.Get "verbose_more") then
            (if (o.Get "verbose_more").ToBoolean then 1 else 0) else z.verbose_more
        numiterations :=
          if rightValue IsInt32 (o.Get "numiterations") then
            (o.Get "numiterations").ToInt32 else z.numiterations
        blocksplitting :=
          if rightValue IsBoolean (o.Get "blocksplitting") then
            (if (o.Get "blocksplitting").ToBoolean then 1 else 0) else z.blocksplitting
        blocksplittinglast :=
          if rightValue IsBoolean (o.Get "blocksplittinglast") then
            (if (o.Get "blocksplittinglast").ToBoolean then 1 else 0)
          else z.blocksplittinglast
        blocksplittingmax :=
          if rightValue IsInt32 (o.Get "blocksplittingmax") then
            (o.Get "blocksplittingmax").ToInt32 else z.blocksplittingmax } := by
  have hall := (parseOptions_null_iff o z).mp h
  have h1 := hall ("verbose", OptionType.boolean) (by simp [optionTable])
  have h2 := hall ("verbose_more", OptionType.boolean) (by simp [optionTable])
  have h3 := hall ("numiterations", OptionType.int32) (by simp [optionTable])
  have h4 := hall ("blocksplitting", OptionType.boolean) (by simp [optionTable])
  have h5 := hall ("blocksplittinglast", OptionType.boolean) (by simp [optionTable])
  have h6 := hall ("blocksplittingmax", OptionType.int32) (by simp [optionTable])
  simp only [wrongType, hasType_boolean, hasType_int32] at h1 h2 h3 h4 h5 h6
  rw [parseOptions_steps]
  simp only [fieldStep_snd, fieldStep_fst, h1, h2, h3, h4, h5, h6, Bool.and_false,
    Bool.false_eq_true, if_false, Value.IsNull, Bool.true_and]
  cases rightValue IsBoolean (o.Get "verbose") <;>
  cases rightValue IsBoolean (o.Get "verbose_more") <;>
  cases rightValue IsInt32 (o.Get "numiterations") <;>
  cases rightValue IsBoolean (o.Get "blocksplitting") <;>
  cases rightValue IsBoolean (o.Get "blocksplittinglast") <;>
  cases rightValue IsInt32 (o.Get "blocksplittingmax") <;>
  rfl


/-! ## Claims on `parseOptions` -/

/-- C3, counterexample. Under numiterations negative zero is a number with the
integral value 0, in the int32 range, and every other key is undefined, so
every key is acceptable as the claim words it; yet `parseOptions` returns the
option error of numiterations. -/
theorem parseOptions_rejects_negative_zero :
    (∀ e ∈ optionTable,
      (singleOption "numiterations" negativeZero).Get e.1 = Value.undefined ∨
      (singleOption "numiterations" negativeZero).Get e.1 = Value.null ∨
      DeclaredTypeAsWorded e.2 ((singleOption "numiterations" negativeZero).Get e.1)) ∧
    (parseOptions (singleOption "numiterations" negativeZero) zeroOptions).1
      = Value.TypeError "Wrong type for option 'numiterations'" := by
  refine ⟨?_, rfl⟩
  intro e he
  simp only [optionTable, List.mem_cons, List.mem_singleton, List.not_mem_nil,
    or_false] at he
  rcases he with rfl | rfl | rfl | rfl | rfl | rfl
  · exact Or.inl rfl
  · exact Or.inl rfl
  · exact Or.inr (Or.inr ⟨0, by decide, by decide, rfl⟩)
  · exact Or.inl rfl
  · exact Or.inl rfl
  · exact Or.inl rfl

/-- C3, amended. `parseOptions` returns no error if and only if each of the six
recognized keys is undefined, null or of its declared type: a primitive
boolean, or a number other than negative zero with an integral value in the
int32 range.  In particular a number or a string under a boolean key, and a
string, a number that is not an integer of the int32 range, negative zero,
NaN or an infinity under an integer key, is rejected. -/
theorem parseOptions_accepts_iff (o : Value) (z : ZopfliOptions) :
    ((parseOptions o z).1 = Value.null ↔
        ∀ e ∈ optionTable, Acceptable e.2 (o.Get e.1)) ∧
    (∀ e ∈ optionTable, e.2 = OptionType.boolean →
        ((∃ q, o.Get e.1 = Value.number q) ∨ (∃ s, o.Get e.1 = Value.special s) ∨
          (∃ s, o.Get e.1 = Value.string s)) →
        (parseOptions o z).1 ≠ Value.null) ∧
    (∀ e ∈ optionTable, e.2 = OptionType.int32 →
        ((∃ s, o.Get e.1 = Value.string s) ∨ (∃ s, o.Get e.1 = Value.special s) ∨
          (∃ q, o.Get e.1 = Value.number q ∧
            ∀ n : Int, -2147483648 ≤ n → n ≤ 2147483647 → q ≠ (n : ℚ))) →
        (parseOptions o z).1 ≠ Value.null) := by
  have hiff : (parseOptions o z).1 = Value.null ↔
      ∀ e ∈ optionTable, Acceptable e.2 (o.Get e.1) := by
    rw [parseOptions_null_iff]
    constructor
    · intro h e he
      exact (wrongValue_false_iff e.2 (o.Get e.1)).mp (h e he)
    · intro h e he
      exact (wrongValue_false_iff e.2 (o.Get e.1)).mpr (h e he)
  refine ⟨hiff, ?_, ?_⟩
  · intro e he ht hv hnull
    have hacc := hiff.mp hnull e he
    rw [ht] at hacc
    rcases hv with ⟨q, hq⟩ | ⟨s, hs⟩ | ⟨s, hs⟩
    · rw [hq] at hacc
      rcases hacc with h | h | ⟨b, h⟩ <;> cases h
    · rw [hs] at hacc
      rcases hacc with h | h | ⟨b, h⟩ <;> cases h
    · rw [hs] at hacc
      rcases hacc with h | h | ⟨b, h⟩ <;> cases h
  · intro e he ht hv hnull
    have hacc := hiff.mp hnull e he
    rw [ht] at hacc
    rcases hv with ⟨s, hs⟩ | ⟨s, hs⟩ | ⟨q, hq, hno⟩
    · rw [hs] at hacc
      rcases hacc with h | h | ⟨n, _, _, h⟩ <;> cases h
    · rw [hs] at hacc
      rcases hacc with h | h | ⟨n, _, _, h⟩ <;> cases h
    · rw [hq] at hacc
      rcases hacc with h | h | ⟨n, hlo, hhi, h⟩
      · cases h
      · cases h
      · exact hno n hlo hhi (Value.number.inj h)

/-- C3, amended, at concrete option maps: `goodOptions` is accepted; 5 and a
string under verbose, and a string, one half, 2^31 and negative zero under
numiterations, are rejected. -/
theorem parseOptions_accepts_iff_witness :
    (parseOptions goodOptions zeroOptions).1 = Value.null ∧
    (parseOptions (singleOption "verbose" (Value.number 5)) zeroOptions).1 ≠ Value.null ∧
    (parseOptions (singleOption "verbose" (Value.ofText "yes")) zeroOptions).1 ≠ Value.null ∧
    (parseOptions (singleOption "numiterations" (Value.ofText "fast")) zeroOptions).1
      ≠ Value.null ∧
    (parseOptions (singleOption "numiterations" (Value.number oneHalf)) zeroOptions).1
      ≠ Value.null ∧
    (parseOptions (singleOption "numiterations" (Value.number 2147483648)) zeroOptions).1
      ≠ Value.null ∧
    (parseOptions (singleOption "numiterations" negativeZero) zeroOptions).1
      ≠ Value.null := by
  refine ⟨?_, ?_, ?_, ?_, ?_, ?_, ?_⟩
  · refine (parseOptions_accepts_iff goodOptions zeroOptions).1.mpr ?_
    intro e he
    simp only [optionTable, List.mem_cons, List.mem_singleton, List.not_mem_nil,
      or_false] at he
    rcases he with rfl | rfl | rfl | rfl | rfl | rfl
    · exact Or.inr (Or.inr ⟨true, rfl⟩)
    · exact Or.inl rfl
    · exact Or.inr (Or.inr ⟨5, by decide, by decide, rfl⟩)
    · exact Or.inr (Or.inr ⟨false, rfl⟩)
    · exact Or.inl rfl
    · exact Or.inr (Or.inl rfl)
  · exact (parseOptions_accepts_iff _ zeroOptions).2.1 ("verbose", OptionType.boolean)
      (by simp [optionTable]) rfl (Or.inl ⟨5, rfl⟩)
  · exact (parseOptions_accepts_iff _ zeroOptions).2.1 ("verbose", OptionType.boolean)
      (by simp [optionTable]) rfl (Or.inr (Or.inr ⟨_, rfl⟩))
  · exact (parseOptions_accepts_iff _ zeroOptions).2.2 ("numiterations", OptionType.int32)
      (by simp [optionTable]) rfl (Or.inl ⟨_, rfl⟩)
  · refine (parseOptions_accepts_iff _ zeroOptions).2.2 ("numiterations", OptionType.int32)
      (by simp [optionTable]) rfl (Or.inr (Or.inr ⟨oneHalf, rfl, ?_⟩))
    intro n _ _ h
    have hd := congrArg Rat.den h
    simp [oneHalf] at hd
  · refine (parseOptions_accepts_iff _ zeroOptions).2.2 ("numiterations", OptionType.int32)
      (by simp [optionTable]) rfl (Or.inr (Or.inr ⟨2147483648, rfl, ?_⟩))
    intro n _ hhi h
    have h2 : (2147483648 : Int) = n := by exact_mod_cast h
    omega
  · exact (parseOptions_accepts_iff _ zeroOptions).2.2 ("numiterations", OptionType.int32)
      (by simp [optionTable]) rfl (Or.inr (Or.inl ⟨_, rfl⟩))

/-- C10. When `parseOptions` returns no error then, for each of the six fields:
if the key holds a boolean (an integer of the int32 range) the field equals
that value, true and false stored as 1 and 0, and if the key is undefined or
null the field equals its value before the call. -/
theorem parseOptions_record_on_success (o : Value) (z : ZopfliOptions)
    (h : (parseOptions o z).1 = Value.null) :
    ((∀ b : Bool, o.Get "verbose" = Value.boolean b →
        (parseOptions o z).2.verbose = if b then 1 else 0) ∧
      (o.Get "verbose" = Value.undefined ∨ o.Get "verbose" = Value.null →
        (parseOptions o z).2.verbose = z.verbose)) ∧
    ((∀ b : Bool, o.Get "verbose_more" = Value.boolean b →
        (parseOptions o z).2.verbose_more = if b then 1 else 0) ∧
      (o.Get "verbose_more" = Value.undefined ∨ o.Get "verbose_more" = Value.null →
        (parseOptions o z).2.verbose_more = z.verbose_more)) ∧
    ((∀ n : Int, -2147483648 ≤ n → n ≤ 2147483647 →
        o.Get "numiterations" = Value.number (n : ℚ) →
        (parseOptions o z).2.numiterations = n) ∧
      (o.Get "numiterations" = Value.undefined ∨ o.Get "numiterations" = Value.null →
        (parseOptions o z).2.numiterations = z.numiterations)) ∧
    ((∀ b : Bool, o.Get "blocksplitting" = Value.boolean b →
        (parseOptions o z).2.blocksplitting = if b then 1 else 0) ∧
      (o.Get "blocksplitting" = Value.undefined ∨ o.Get "blocksplitting" = Value.null →
        (parseOptions o z).2.blocksplitting = z.blocksplitting)) ∧
    ((∀ b : Bool, o.Get "blocksplittinglast" = Value.boolean b →
        (parseOptions o z).2.blocksplittinglast = if b then 1 else 0) ∧
      (o.Get "blocksplittinglast" = Value.undefined ∨
          o.Get "blocksplittinglast" = Value.null →
        (parseOptions o z).2.blocksplittinglast = z.blocksplittinglast)) ∧
    ((∀ n : Int, -2147483648 ≤ n → n ≤ 2147483647 →
        o.Get "blocksplittingmax" = Value.number (n : ℚ) →
        (parseOptions o z).2.blocksplittingmax = n) ∧
      (o.Get "blocksplittingmax" = Value.undefined ∨
          o.Get "blocksplittingmax" = Value.null →
        (parseOptions o z).2.blocksplittingmax = z.blocksplittingmax)) := by
  rw [parseOptions_record_of_null o z h]
  have hb : ∀ b : Bool, rightValue IsBoolean (Value.boolean b) = true := fun _ => rfl
  have hi : ∀ n : Int, -2147483648 ≤ n → n ≤ 2147483647 →
      rightValue IsInt32 (Value.number (n : ℚ)) = true := by
    intro n hlo hhi
    have := (isInt32_iff (Value.number (n : ℚ))).mpr ⟨n, hlo, hhi, rfl⟩
    simp [rightValue, this, Value.IsUndefined, Value.IsNull]
  have hu : ∀ (t : Value → Bool) (v : Value), v = Value.undefined ∨ v = Value.null →
      rightValue t v = false := by
    intro t v hv
    rcases hv with rfl | rfl <;> simp [rightValue, Value.IsUndefined, Value.IsNull]
  refine ⟨⟨?_, ?_⟩, ⟨?_, ?_⟩, ⟨?_, ?_⟩, ⟨?_, ?_⟩, ⟨?_, ?_⟩, ⟨?_, ?_⟩⟩
  · intro b hv; simp [hv, hb, Value.ToBoolean]
  · intro hv; simp [hu _ _ hv]
  · intro b hv; simp [hv, hb, Value.ToBoolean]
  · intro hv; simp [hu _ _ hv]
  · intro n hlo hhi hv; simp [hv, hi n hlo hhi, toInt32_intCast n hlo hhi]
  · intro hv; simp [hu _ _ hv]
  · intro b hv; simp [hv, hb, Value.ToBoolean]
  · intro hv; simp [hu _ _ hv]
  · intro b hv; simp [hv, hb, Value.ToBoolean]
  · intro hv; simp [hu _ _ hv]
  · intro n hlo hhi hv; simp [hv, hi n hlo hhi, toInt32_intCast n hlo hhi]
  · intro hv; simp [hu _ _ hv]

/-- C10 at `goodOptions` and a record of sevens: verbose 1, numiterations 5 and
blocksplitting 0 are stored; the absent verbose_more and blocksplittinglast
and the null blocksplittingmax keep 7. -/
theorem parseOptions_record_on_success_witness :
    (parseOptions goodOptions ⟨7, 7, 7, 7, 7, 7⟩).1 = Value.null ∧
      (parseOptions goodOptions ⟨7, 7, 7, 7, 7, 7⟩).2 = ⟨1, 7, 5, 0, 7, 7⟩ := by
  have h : (parseOptions goodOptions ⟨7, 7, 7, 7, 7, 7⟩).1 = Value.null := rfl
  obtain ⟨⟨h1, -⟩, ⟨-, h2⟩, ⟨h3, -⟩, ⟨h4, -⟩, ⟨-, h5⟩, ⟨-, h6⟩⟩ :=
    parseOptions_record_on_success goodOptions ⟨7, 7, 7, 7, 7, 7⟩ h
  refine ⟨h, ?_⟩
  have e1 := h1 true rfl
  have e2 := h2 (Or.inl rfl)
  have e3 := h3 5 (by decide) (by decide) rfl
  have e4 := h4 false rfl
  have e5 := h5 (Or.inl rfl)
  have e6 := h6 (Or.inr rfl)
  cases hr : (parseOptions goodOptions ⟨7, 7, 7, 7, 7, 7⟩).2
  rw [hr] at e1 e2 e3 e4 e5 e6
  simp only at e1 e2 e3 e4 e5 e6
  simp [e1, e2, e3, e4, e5, e6]


/-! ## Lemmas on `Deflate` -/

theorem isNull_null : Value.null.IsNull = true := rfl

theorem argAt_natCast (args : List Value) (i : Nat) :
    argAt args (i : Int) = args.getD i Value.undefined := by
  simp [argAt]

/-- An argument that is not undefined lies within the argument list. -/
theorem lt_length_of_argAt (args : List Value) (i : Nat)
    (h : argAt args (i : Int) ≠ Value.undefined) : i < args.length := by
  rw [argAt_natCast] at h
  by_contra hlt
  apply h
  simp [List.getD, List.getElem?_eq_none (Nat.le_of_not_lt hlt)]

/-- A second argument that is a string is within the argument list. -/
theorem two_le_of_isString (args : List Value) (h : (argAt args 1).IsString = true) :
    (2 : Int) ≤ (args.length : Int) := by
  have := lt_length_of_argAt args 1 (by
    intro hu
    have hu1 : argAt args 1 = Value.undefined := hu
    rw [hu1] at h
    cases h)
  omega

/-- A third argument that is an object is within the argument list. -/
theorem three_le_of_isObject (args : List Value) (h : (argAt args 2).IsObject = true) :
    (3 : Int) ≤ (args.length : Int) := by
  have := lt_length_of_argAt args 2 (by
    intro hu
    have hu1 : argAt args 2 = Value.undefined := hu
    rw [hu1] at h
    cases h)
  omega

/-- The last argument is `args[args.Length() - 1]`. -/
theorem argAt_last (args : List Value) (cb : Value) (h : args.getLast? = some cb) :
    1 ≤ args.length ∧ argAt args ((args.length : Int) - 1) = cb := by
  have hne : args ≠ [] := by
    intro h0; rw [h0] at h; simp at h
  have hlen : 1 ≤ args.length := List.length_pos.mpr hne
  refine ⟨hlen, ?_⟩
  have hi : ((args.length : Int) - 1) = ((args.length - 1 : Nat) : Int) := by omega
  rw [hi, argAt_natCast]
  rw [List.getLast?_eq_getElem?] at h
  simp [List.getD, h]

/-- The object of a value has the bytes of the value. -/
theorem Buffer_Data_ToObject (v obj : Value) (h : v.ToObject = some obj) :
    Buffer.Data obj = Buffer.Data v := by
  cases v <;> first | (cases h; rfl) | cases h

/-- The first argument has an object exactly when it is neither undefined nor
null. -/
theorem toObject_isSome_iff (v : Value) :
    v.ToObject.isSome = true ↔ v ≠ Value.undefined ∧ v ≠ Value.null := by
  cases v <;> simp [Value.ToObject]

/-- A buffer has an object. -/
theorem toObject_of_hasInstance (v : Value) (h : Buffer.HasInstance v = true) :
    v.ToObject.isSome = true := by
  cases v with
  | object kind props => rfl
  | _ => cases h

/-- A value without an object is no buffer. -/
theorem hasInstance_of_no_object (v : Value) (h : v.ToObject = none) :
    Buffer.HasInstance v = false := by
  cases v <;> first | rfl | simp [Value.ToObject] at h

/-- When no check fails the first argument is a buffer. -/
theorem hasInstance_of_firstFailure_none (args : List Value)
    (h : firstFailure args = none) : Buffer.HasInstance (argAt args 0) = true := by
  unfold firstFailure at h
  cases h0 : Buffer.HasInstance (argAt args 0) with
  | true => rfl
  | false => simp [h0] at h

/-- An argument list whose last argument is a function and whose first
argument is undefined or null: the process dies at line 119 and nothing else
happens. -/
theorem Deflate_of_no_object
    (C : ZopfliOptions → ZopfliFormat → List Nat → List Nat) (z : ZopfliOptions)
    (args : List Value) (cb : Value) (hlast : args.getLast? = some cb)
    (hcb : cb.IsFunction = true) (hto : (argAt args 0).ToObject = none) :
    Deflate C z args = [Event.crash] := by
  obtain ⟨hlen, hat⟩ := argAt_last args cb hlast
  have hlen1 : (1 : Int) ≤ (args.length : Int) := by omega
  unfold Deflate
  simp only [hat, hcb, ge_iff_le, hlen1, decide_True, Bool.not_true, Bool.and_false,
    Bool.false_eq_true, if_false, hto]

/-- After the callback check: the normal form of `Deflate` on an argument
list whose last argument is a function and whose first argument is neither
undefined nor null. -/
theorem Deflate_of_callback
    (C : ZopfliOptions → ZopfliFormat → List Nat → List Nat) (z : ZopfliOptions)
    (args : List Value) (cb : Value) (hlast : args.getLast? = some cb)
    (hcb : cb.IsFunction = true) (hto : (argAt args 0).ToObject.isSome = true) :
    Deflate C z args =
      if !Buffer.HasInstance (argAt args 0) then
        [Event.call cb [Value.TypeError "First argument must be a buffer"]]
      else if !(argAt args 1).IsString then
        [Event.call cb [Value.TypeError "Second argument must be a string"]]
      else
        match resolveFormat (argAt args 1).ToString with
        | none => [Event.call cb [Value.TypeError "Invalid format"]]
        | some format =>
          if !(argAt args 2).IsObject then
            [Event.call cb [Value.TypeError "Third argument must be an object"]]
          else
            completion C (parseOptions (argAt args 2) z) format
              (Buffer.Data (argAt args 0)) cb := by
  obtain ⟨hlen, hat⟩ := argAt_last args cb hlast
  have hlen1 : (1 : Int) ≤ (args.length : Int) := by omega
  have hlt1 : ¬ ((args.length : Int) < 1) := by omega
  obtain ⟨obj, hobj⟩ := Option.isSome_iff_exists.mp hto
  have hdata := Buffer_Data_ToObject (argAt args 0) obj hobj
  unfold Deflate
  simp only [hat, hcb, ge_iff_le, hlen1, decide_True, Bool.not_true, Bool.and_false,
    Bool.false_eq_true, if_false, hobj, hdata]
  cases h0 : Buffer.HasInstance (argAt args 0) with
  | false => simp [isNull_TypeError]
  | true =>
    cases h1 : (argAt args 1).IsString with
    | false => simp [isNull_TypeError, isNull_null, hlt1]
    | true =>
      have hlen2 := two_le_of_isString args h1
      simp only [hlt1, decide_False, Bool.not_true, Bool.or_false, Bool.false_eq_true,
        if_false, isNull_null, if_true, hlen2, decide_True, Bool.and_true, resolveFormat,
        Bool.not_false]
      generalize std_string (AsciiValue (argAt args 1).ToString) = g
      have tail : ∀ F : ZopfliFormat,
          (if (!(if (decide ((3 : Int) ≤ (args.length : Int)) && (argAt args 2).IsObject) = true
                  then parseOptions (argAt args 2) z
                  else (Value.TypeError "Third argument must be an object", z)).1.IsNull) = true
            then
              [Event.call cb
                [(if (decide ((3 : Int) ≤ (args.length : Int)) && (argAt args 2).IsObject) = true
                  then parseOptions (argAt args 2) z
                  else (Value.TypeError "Third argument must be an object", z)).1]]
            else
              [Event.engine
                (if (decide ((3 : Int) ≤ (args.length : Int)) && (argAt args 2).IsObject) = true
                  then parseOptions (argAt args 2) z
                  else (Value.TypeError "Third argument must be an object", z)).2
                F (Buffer.Data (argAt args 0)),
               Event.call cb
                [Value.null,
                 Buffer.New
                  (C
                    (if (decide ((3 : Int) ≤ (args.length : Int)) &&
                          (argAt args 2).IsObject) = true
                      then parseOptions (argAt args 2) z
                      else (Value.TypeError "Third argument must be an object", z)).2
                    F (Buffer.Data (argAt args 0)))]]) =
          if (!(argAt args 2).IsObject) = true then
            [Event.call cb [Value.TypeError "Third argument must be an object"]]
          else
            completion C (parseOptions (argAt args 2) z) F (Buffer.Data (argAt args 0)) cb := by
        intro F
        cases h2 : (argAt args 2).IsObject with
        | false => simp [isNull_TypeError]
        | true =>
          have hlen3 := three_le_of_isObject args h2
          simp [hlen3, completion]
      by_cases hg1 : g = cBytes "gzip"
      · simp only [hg1, if_true]
        exact tail _
      · by_cases hg2 : g = cBytes "zlib"
        · simp only [hg1, hg2, if_true, if_false]
          exact tail _
        · by_cases hg3 : g = cBytes "deflate"
          · simp only [hg1, hg2, hg3, if_true, if_false]
            exact tail _
          · simp [hg1, hg2, hg3, isNull_TypeError]


/-- A nonempty argument list whose last argument is not a function: the
TypeError is thrown and nothing else happens. -/
theorem Deflate_of_no_callback
    (C : ZopfliOptions → ZopfliFormat → List Nat → List Nat) (z : ZopfliOptions)
    (args : List Value) (last : Value) (hlast : args.getLast? = some last)
    (hcb : last.IsFunction = false) :
    Deflate C z args =
      [Event.throw (Value.TypeError "Last argument must be a callback function")] := by
  obtain ⟨hlen, hat⟩ := argAt_last args last hlast
  have hlen1 : (1 : Int) ≤ (args.length : Int) := by omega
  unfold Deflate
  simp [hat, hcb, hlen1]

/-- The error of `parseOptions` is null or a TypeError. -/
theorem parseOptions_error_cases (o : Value) (z : ZopfliOptions) :
    (parseOptions o z).1 = Value.null ∨
      ∃ msg, (parseOptions o z).1 = Value.TypeError msg := by
  rw [parseOptions_error]
  cases optionTable.find? (wrongType o) with
  | none => exact Or.inl rfl
  | some e => exact Or.inr ⟨_, rfl⟩

/-- The buffer that `std::string` reads from `AsciiValue` has no NUL byte, so
the whole buffer is read. -/
theorem std_string_AsciiValue (units : List Nat) :
    std_string (AsciiValue units) = AsciiValue units := by
  unfold std_string AsciiValue
  induction units with
  | nil => simp [List.takeWhile]
  | cons c rest ih =>
    simp only [List.map_cons, List.cons_append]
    by_cases hc : c % 256 = 0
    · simp only [hc, if_true]
      rw [List.takeWhile_cons_of_pos (by decide)]
      rw [ih]
    · simp only [hc, if_false]
      rw [List.takeWhile_cons_of_pos (by simpa using hc)]
      rw [ih]

/-- On a string of code units below 256 the ASCII rendering equals a text
without NUL and space only when the string is that text. -/
theorem eq_of_AsciiValue_eq (units t : List Nat) (hu : ∀ c ∈ units, c < 256)
    (ht : ∀ b ∈ t, b ≠ 32) (h : AsciiValue units = t) : units = t := by
  induction units generalizing t with
  | nil => simpa [AsciiValue] using h
  | cons c rest ih =>
    cases t with
    | nil => simp [AsciiValue] at h
    | cons b t1 =>
      simp only [AsciiValue, List.map_cons, List.cons.injEq] at h
      have hc : c < 256 := hu c (List.mem_cons_self _ _)
      have hb : b ≠ 32 := ht b (List.mem_cons_self _ _)
      have hcb : c = b := by
        have h1 := h.1
        split at h1 <;> omega
      rw [hcb, ih t1 (fun x hx => hu x (List.mem_cons_of_mem _ hx))
        (fun x hx => ht x (List.mem_cons_of_mem _ hx)) h.2]

/-- On a string of code units below 256 the source's comparison chain is exact
equality with the three tokens. -/
theorem resolveFormat_exact (units : List Nat) (hu : ∀ c ∈ units, c < 256) :
    resolveFormat units =
      if units = cBytes "gzip" then some ZopfliFormat.ZOPFLI_FORMAT_GZIP
      else if units = cBytes "zlib" then some ZopfliFormat.ZOPFLI_FORMAT_ZLIB
      else if units = cBytes "deflate" then some ZopfliFormat.ZOPFLI_FORMAT_DEFLATE
      else none := by
  have key : ∀ t : List Nat, (∀ b ∈ t, b ≠ 32) → AsciiValue t = t →
      (AsciiValue units = t ↔ units = t) := by
    intro t ht hfix
    constructor
    · exact eq_of_AsciiValue_eq units t hu ht
    · intro h; rw [h, hfix]
  unfold resolveFormat
  simp only [std_string_AsciiValue]
  have k1 := key (cBytes "gzip") (by decide) (by decide)
  have k2 := key (cBytes "zlib") (by decide) (by decide)
  have k3 := key (cBytes "deflate") (by decide) (by decide)
  simp only [k1, k2, k3]


/-! ## Claims on `Deflate` -/

/-- On an argument list whose last argument is a function and whose first
argument is neither undefined nor null, the single effect is the callback call
with the message of the first failing check of `firstFailure`. -/
theorem Deflate_of_firstFailure
    (C : ZopfliOptions → ZopfliFormat → List Nat → List Nat) (z : ZopfliOptions)
    (args : List Value) (cb : Value) (msg : String)
    (hlast : args.getLast? = some cb) (hcb : cb.IsFunction = true)
    (hto : (argAt args 0).ToObject.isSome = true)
    (hf : firstFailure args = some msg) :
    Deflate C z args = [Event.call cb [Value.TypeError msg]] := by
  rw [Deflate_of_callback C z args cb hlast hcb hto]
  unfold firstFailure at hf
  cases h0 : Buffer.HasInstance (argAt args 0) with
  | false =>
    simp only [h0, Bool.not_false, if_true, Option.some.injEq] at hf
    simp [hf]
  | true =>
    cases h1 : (argAt args 1).IsString with
    | false =>
      simp only [h0, h1, Bool.not_true, Bool.false_eq_true, if_false, Bool.not_false, if_true,
        Option.some.injEq] at hf
      simp [hf]
    | true =>
      cases h2 : resolveFormat (argAt args 1).ToString with
      | none =>
        simp only [h0, h1, h2, Bool.not_true, Bool.false_eq_true, if_false, Option.isNone_none,
          if_true, Option.some.injEq] at hf
        simp [hf]
      | some F =>
        cases h3 : (argAt args 2).IsObject with
        | false =>
          simp only [h0, h1, h2, h3, Bool.not_true, Bool.false_eq_true, if_false,
            Option.isNone_some, Bool.not_false, if_true, Option.some.injEq] at hf
          simp [hf]
        | true =>
          simp only [h0, h1, h2, h3, Bool.not_true, Bool.false_eq_true, if_false,
            Option.isNone_some] at hf
          have herr := parseOptions_error (argAt args 2) z
          cases hfind : optionTable.find? (wrongType (argAt args 2)) with
          | none => rw [hfind] at hf; cases hf
          | some e =>
            rw [hfind] at hf herr
            simp only [Option.map_some', Option.some.injEq] at hf
            simp only at herr
            rw [hf] at herr
            simp [completion, herr, isNull_TypeError]

/-- A string is none of the three tokens exactly when the exact comparison
chain finds no format. -/
theorem not_token_iff (units : List Nat) :
    units ∉ [cBytes "gzip", cBytes "zlib", cBytes "deflate"] ↔
      (if units = cBytes "gzip" then some ZopfliFormat.ZOPFLI_FORMAT_GZIP
        else if units = cBytes "zlib" then some ZopfliFormat.ZOPFLI_FORMAT_ZLIB
        else if units = cBytes "deflate" then some ZopfliFormat.ZOPFLI_FORMAT_DEFLATE
        else none).isNone = true := by
  by_cases h1 : units = cBytes "gzip"
  · rw [if_pos h1]; simp [h1]
  · by_cases h2 : units = cBytes "zlib"
    · rw [if_neg h1, if_pos h2]; simp [h2]
    · by_cases h3 : units = cBytes "deflate"
      · rw [if_neg h1, if_neg h2, if_pos h3]; simp [h3]
      · rw [if_neg h1, if_neg h2, if_neg h3]; simp [h1, h2, h3]

/-- When the format string, if there is one, has all code units below 256, the
checks as the claim words them and the checks of the binding fail alike. -/
theorem firstFailureAsWorded_eq (args : List Value)
    (hunits : ∀ units, argAt args 1 = Value.string units → ∀ c ∈ units, c < 256) :
    firstFailureAsWorded args = firstFailure args := by
  unfold firstFailureAsWorded firstFailure
  cases hv : argAt args 1 with
  | string units =>
    have hu := hunits units hv
    simp only [Value.ToString, resolveFormat_exact units hu, not_token_iff]
  | _ => simp [Value.IsString]

/-- C1, counterexample. With a valid buffer, the format string U+0167 z i p,
which is none of the three tokens, and a third argument that is no object, the
first failing check as the claim words it is the format, with "Invalid
format"; the callback receives "Third argument must be an object". And with
an undefined first argument no error is delivered: the process dies. -/
theorem Deflate_first_failure_inexact :
    firstFailureAsWorded
        [Buffer.New [1], Value.string barredToken, Value.number 3, plainCallback]
      = some "Invalid format" ∧
    Deflate storeEngine zeroOptions
        [Buffer.New [1], Value.string barredToken, Value.number 3, plainCallback]
      = [Event.call plainCallback [Value.TypeError "Third argument must be an object"]] ∧
    firstFailureAsWorded
        [Value.undefined, Value.ofText "gzip", emptyObject, plainCallback]
      = some "First argument must be a buffer" ∧
    Deflate storeEngine zeroOptions
        [Value.undefined, Value.ofText "gzip", emptyObject, plainCallback]
      = [Event.crash] :=
  ⟨by decide, rfl, by decide, rfl⟩

/-- C1, amended. For every argument list whose last argument is a function,
whose first argument is neither undefined nor null and whose format string,
if the second argument is a string, has all code units below 256, the single
error delivered to the callback is the message of the first check that fails
in the order (1) the first argument is a buffer, (2) the second argument is a
string, (3) the string is one of the three format tokens, (4) the third
argument is an object, (5) the six option fields in declaration order; no
later check contributes to or replaces the message. -/
theorem Deflate_first_failure
    (C : ZopfliOptions → ZopfliFormat → List Nat → List Nat) (z : ZopfliOptions)
    (args : List Value) (cb : Value) (msg : String)
    (hlast : args.getLast? = some cb) (hcb : cb.IsFunction = true)
    (hfirst : argAt args 0 ≠ Value.undefined ∧ argAt args 0 ≠ Value.null)
    (hunits : ∀ units, argAt args 1 = Value.string units → ∀ c ∈ units, c < 256)
    (hf : firstFailureAsWorded args = some msg) :
    Deflate C z args = [Event.call cb [Value.TypeError msg]] := by
  rw [firstFailureAsWorded_eq args hunits] at hf
  exact Deflate_of_firstFailure C z args cb msg hlast hcb
    ((toObject_isSome_iff _).mpr hfirst) hf

/-- C1, amended, at argument lists in which several checks fail at once: a
first argument that is no buffer wins over an unknown format, an unknown
format over a wrong-typed option, a non-object third argument over nothing
later, and of two wrong-typed options the earlier one is named. -/
theorem Deflate_first_failure_witness :
    Deflate storeEngine zeroOptions
        [Value.number 1, Value.ofText "bzip2", scenarioD, plainCallback]
      = [Event.call plainCallback [Value.TypeError "First argument must be a buffer"]] ∧
    Deflate storeEngine zeroOptions
        [Buffer.New [1], Value.number 2, scenarioD, plainCallback]
      = [Event.call plainCallback [Value.TypeError "Second argument must be a string"]] ∧
    Deflate storeEngine zeroOptions
        [Buffer.New [1], Value.ofText "bzip2", scenarioD, plainCallback]
      = [Event.call plainCallback [Value.TypeError "Invalid format"]] ∧
    Deflate storeEngine zeroOptions
        [Buffer.New [1], Value.ofText "zlib", Value.number 3, plainCallback]
      = [Event.call plainCallback [Value.TypeError "Third argument must be an object"]] ∧
    Deflate storeEngine zeroOptions
        [Buffer.New [1], Value.ofText "zlib", scenarioD, plainCallback]
      = [Event.call plainCallback
          [Value.TypeError "Wrong type for option 'numiterations'"]] := by
  have hne : ∀ v : Value, v.ToObject.isSome = true →
      v ≠ Value.undefined ∧ v ≠ Value.null := fun v h => (toObject_isSome_iff v).mp h
  have hstr : ∀ (s : String) (units : List Nat), (∀ c ∈ cBytes s, c < 256) →
      Value.ofText s = Value.string units → ∀ c ∈ units, c < 256 := by
    intro s units hs h
    cases h
    exact hs
  refine ⟨?_, ?_, ?_, ?_, ?_⟩
  · exact Deflate_first_failure _ _ _ plainCallback _ rfl rfl (hne _ rfl)
      (fun units h => hstr "bzip2" units (by decide) h) (by decide)
  · exact Deflate_first_failure _ _ _ plainCallback _ rfl rfl (hne _ rfl)
      (fun units h => by cases h) (by decide)
  · exact Deflate_first_failure _ _ _ plainCallback _ rfl rfl (hne _ rfl)
      (fun units h => hstr "bzip2" units (by decide) h) (by decide)
  · exact Deflate_first_failure _ _ _ plainCallback _ rfl rfl (hne _ rfl)
      (fun units h => hstr "zlib" units (by decide) h) (by decide)
  · exact Deflate_first_failure _ _ _ plainCallback _ rfl rfl (hne _ rfl)
      (fun units h => hstr "zlib" units (by decide) h) (by decide)


/-- C4, counterexample. The format string of the code units U+0167, z, i, p is
none of the three tokens, yet it resolves to Gzip: the engine is called and
no "Invalid format" error is delivered. -/
theorem Deflate_inexact_format :
    barredToken ≠ cBytes "gzip" ∧ barredToken ≠ cBytes "zlib" ∧
    barredToken ≠ cBytes "deflate" ∧
    Deflate storeEngine zeroOptions
        [Buffer.New [1, 2], Value.string barredToken, emptyObject, plainCallback]
      = [Event.engine zeroOptions ZopfliFormat.ZOPFLI_FORMAT_GZIP [1, 2],
         Event.call plainCallback [Value.null, Buffer.New [1, 2]]] :=
  ⟨by decide, by decide, by decide, rfl⟩

/-- C4, amended. For every format string whose code units are all below 256
(with a valid buffer, an options object and a callback), the format resolves
to Gzip, Zlib or Deflate exactly when the string equals "gzip", "zlib" or
"deflate" code unit for code unit; every other such string yields the failure
"Invalid format" and no engine call. -/
theorem Deflate_format_exact
    (C : ZopfliOptions → ZopfliFormat → List Nat → List Nat) (z : ZopfliOptions)
    (data : List Nat) (props : List (String × Value)) (units : List Nat) (o cb : Value)
    (hcb : cb.IsFunction = true) (ho : o.IsObject = true) (hu : ∀ c ∈ units, c < 256) :
    Deflate C z [Value.object (ObjectKind.buffer data) props, Value.string units, o, cb] =
      if units = cBytes "gzip" then
        completion C (parseOptions o z) ZopfliFormat.ZOPFLI_FORMAT_GZIP data cb
      else if units = cBytes "zlib" then
        completion C (parseOptions o z) ZopfliFormat.ZOPFLI_FORMAT_ZLIB data cb
      else if units = cBytes "deflate" then
        completion C (parseOptions o z) ZopfliFormat.ZOPFLI_FORMAT_DEFLATE data cb
      else [Event.call cb [Value.TypeError "Invalid format"]] := by
  rw [Deflate_of_callback C z
    [Value.object (ObjectKind.buffer data) props, Value.string units, o, cb] cb rfl hcb rfl]
  have e0 : argAt [Value.object (ObjectKind.buffer data) props, Value.string units, o, cb] 0
      = Value.object (ObjectKind.buffer data) props := rfl
  have e1 : argAt [Value.object (ObjectKind.buffer data) props, Value.string units, o, cb] 1
      = Value.string units := rfl
  have e2 : argAt [Value.object (ObjectKind.buffer data) props, Value.string units, o, cb] 2
      = o := rfl
  simp only [e0, e1, e2, Buffer.HasInstance, Buffer.Data, Value.IsString, Value.ToString, ho,
    Bool.not_true, Bool.false_eq_true, if_false, resolveFormat_exact units hu]
  by_cases h1 : units = cBytes "gzip"
  · simp only [if_pos h1]
  · by_cases h2 : units = cBytes "zlib"
    · simp only [if_neg h1, if_pos h2]
    · by_cases h3 : units = cBytes "deflate"
      · simp only [if_neg h1, if_neg h2, if_pos h3]
      · simp only [if_neg h1, if_neg h2, if_neg h3]

/-- C4, amended, at the strings of the claim: "gzip" resolves to Gzip; "GZIP", " gzip",
"bzip2" and "gzip" followed by NUL and "x" yield "Invalid format". -/
theorem Deflate_format_exact_witness :
    Deflate storeEngine zeroOptions
        [Buffer.New [1, 2], Value.ofText "gzip", emptyObject, plainCallback]
      = [Event.engine zeroOptions ZopfliFormat.ZOPFLI_FORMAT_GZIP [1, 2],
         Event.call plainCallback [Value.null, Buffer.New [1, 2]]] ∧
    Deflate storeEngine zeroOptions
        [Buffer.New [1, 2], Value.ofText "GZIP", emptyObject, plainCallback]
      = [Event.call plainCallback [Value.TypeError "Invalid format"]] ∧
    Deflate storeEngine zeroOptions
        [Buffer.New [1, 2], Value.ofText " gzip", emptyObject, plainCallback]
      = [Event.call plainCallback [Value.TypeError "Invalid format"]] ∧
    Deflate storeEngine zeroOptions
        [Buffer.New [1, 2], Value.ofText "bzip2", emptyObject, plainCallback]
      = [Event.call plainCallback [Value.TypeError "Invalid format"]] ∧
    Deflate storeEngine zeroOptions
        [Buffer.New [1, 2], Value.string nulToken, emptyObject, plainCallback]
      = [Event.call plainCallback [Value.TypeError "Invalid format"]] :=
  ⟨(Deflate_format_exact storeEngine zeroOptions [1, 2] [] _ emptyObject plainCallback
      rfl rfl (by decide)).trans rfl,
   (Deflate_format_exact storeEngine zeroOptions [1, 2] [] _ emptyObject plainCallback
      rfl rfl (by decide)).trans rfl,
   (Deflate_format_exact storeEngine zeroOptions [1, 2] [] _ emptyObject plainCallback
      rfl rfl (by decide)).trans rfl,
   (Deflate_format_exact storeEngine zeroOptions [1, 2] [] _ emptyObject plainCallback
      rfl rfl (by decide)).trans rfl,
   (Deflate_format_exact storeEngine zeroOptions [1, 2] [] nulToken emptyObject plainCallback
      rfl rfl (by decide)).trans rfl⟩

/-- C5, counterexample. Scenario A, a buffer of 100 zero bytes and a callback
with the format omitted, is not a success: the callback receives the error
"Second argument must be a string" and the engine is not called. -/
theorem Deflate_format_omitted_fails :
    Deflate storeEngine zeroOptions [Buffer.New (List.replicate 100 0), plainCallback]
      = [Event.call plainCallback [Value.TypeError "Second argument must be a string"]] ∧
    ¬ ∃ opts out,
      Deflate storeEngine zeroOptions [Buffer.New (List.replicate 100 0), plainCallback]
        = [Event.engine opts ZopfliFormat.ZOPFLI_FORMAT_DEFLATE (List.replicate 100 0),
           Event.call plainCallback [Value.null, Buffer.New out]] := by
  have h : Deflate storeEngine zeroOptions [Buffer.New (List.replicate 100 0), plainCallback]
      = [Event.call plainCallback [Value.TypeError "Second argument must be a string"]] := rfl
  refine ⟨h, ?_⟩
  rintro ⟨opts, out, hs⟩
  rw [h] at hs
  simp at hs

/-- C5, amended. For every valid input buffer, the call (buffer, callback) that
omits the format delivers the failure "Second argument must be a string" to
the callback; the engine is not called. -/
theorem Deflate_format_omitted
    (C : ZopfliOptions → ZopfliFormat → List Nat → List Nat) (z : ZopfliOptions)
    (data : List Nat) (props cprops : List (String × Value)) :
    Deflate C z
        [Value.object (ObjectKind.buffer data) props, Value.object ObjectKind.function cprops]
      = [Event.call (Value.object ObjectKind.function cprops)
          [Value.TypeError "Second argument must be a string"]] := by
  rfl


/-- The source's comparison chain resolves each token to its format. -/
theorem resolveFormat_token (F : ZopfliFormat) :
    resolveFormat (cBytes (formatToken F)) = some F := by
  cases F <;> rfl

/-- C6, counterexample. The call (buffer, "gzip", callback) without options, on
a callback that carries the property numiterations = "fast", is not a
success: it delivers an option-type error and the engine is not called. -/
theorem Deflate_options_omitted_fails :
    Deflate storeEngine zeroOptions [Buffer.New [], Value.ofText "gzip", fastCallback]
      = [Event.call fastCallback
          [Value.TypeError "Wrong type for option 'numiterations'"]] := by
  rfl

/-- C6, amended. For every valid input buffer, every format token and every
callback whose properties under the six recognized keys are each absent or
well-typed, the call (buffer, format, callback) without options delivers
success: the engine is called once with the resolved format, on the record
the callback's own properties give, and the callback receives null and the
result buffer. -/
theorem Deflate_options_omitted
    (C : ZopfliOptions → ZopfliFormat → List Nat → List Nat) (z : ZopfliOptions)
    (data : List Nat) (props : List (String × Value)) (F : ZopfliFormat) (cb : Value)
    (hcb : cb.IsFunction = true) (hprops : ∀ e ∈ optionTable, wrongType cb e = false) :
    Deflate C z
        [Value.object (ObjectKind.buffer data) props, Value.ofText (formatToken F), cb]
      = [Event.engine (parseOptions cb z).2 F data,
         Event.call cb [Value.null, Buffer.New (C (parseOptions cb z).2 F data)]] := by
  rw [Deflate_of_callback C z
    [Value.object (ObjectKind.buffer data) props, Value.ofText (formatToken F), cb] cb rfl hcb
    rfl]
  have e0 : argAt [Value.object (ObjectKind.buffer data) props,
      Value.ofText (formatToken F), cb] 0 = Value.object (ObjectKind.buffer data) props := rfl
  have e1 : argAt [Value.object (ObjectKind.buffer data) props,
      Value.ofText (formatToken F), cb] 1 = Value.string (cBytes (formatToken F)) := rfl
  have e2 : argAt [Value.object (ObjectKind.buffer data) props,
      Value.ofText (formatToken F), cb] 2 = cb := rfl
  have hobj : cb.IsObject = true := by
    cases cb with
    | object k p => rfl
    | _ => cases hcb
  have hnull := (parseOptions_null_iff cb z).mpr hprops
  simp only [e0, e1, e2, Buffer.HasInstance, Buffer.Data, Value.IsString, Value.ToString, hobj,
    Bool.not_true, Bool.false_eq_true, if_false, resolveFormat_token, completion, hnull,
    isNull_null]

/-- C6, amended, at scenario B: the empty buffer, "gzip" and a callback
without properties. -/
theorem Deflate_options_omitted_witness :
    (∀ e ∈ optionTable, wrongType plainCallback e = false) ∧
    Deflate storeEngine zeroOptions [Buffer.New [], Value.ofText "gzip", plainCallback]
      = [Event.engine zeroOptions ZopfliFormat.ZOPFLI_FORMAT_GZIP [],
         Event.call plainCallback [Value.null, Buffer.New []]] :=
  have h : ∀ e ∈ optionTable, wrongType plainCallback e = false := by
    intro e he
    simp only [optionTable, List.mem_cons, List.mem_singleton, List.not_mem_nil,
      or_false] at he
    rcases he with rfl | rfl | rfl | rfl | rfl | rfl <;> rfl
  ⟨h, (Deflate_options_omitted storeEngine zeroOptions [] []
    ZopfliFormat.ZOPFLI_FORMAT_GZIP plainCallback rfl h).trans rfl⟩

/-- C7, the failing input. On the empty argument list `Deflate` throws nothing:
the guard of line 108 does not apply, the run goes on to line 119 with an
undefined `args[0]` and the process dies there. -/
theorem Deflate_no_arguments
    (C : ZopfliOptions → ZopfliFormat → List Nat → List Nat) (z : ZopfliOptions) :
    Deflate C z [] = [Event.crash] := by
  rfl

/-- On an argument list whose last argument is a function and whose first
argument is neither undefined nor null, `Deflate` throws nothing and calls
that callback exactly once: either with a TypeError alone, or with an explicit
null followed by the buffer of the engine's output. -/
theorem Deflate_delivers_once_of_object
    (C : ZopfliOptions → ZopfliFormat → List Nat → List Nat) (z : ZopfliOptions)
    (args : List Value) (cb : Value)
    (hlast : args.getLast? = some cb) (hcb : cb.IsFunction = true)
    (hto : (argAt args 0).ToObject.isSome = true) :
    (∃ msg, Deflate C z args = [Event.call cb [Value.TypeError msg]]) ∨
    (∃ opts format input, Deflate C z args =
      [Event.engine opts format input,
       Event.call cb [Value.null, Buffer.New (C opts format input)]]) := by
  rw [Deflate_of_callback C z args cb hlast hcb hto]
  cases Buffer.HasInstance (argAt args 0) with
  | false => exact Or.inl ⟨_, rfl⟩
  | true =>
    cases (argAt args 1).IsString with
    | false => exact Or.inl ⟨_, rfl⟩
    | true =>
      cases resolveFormat (argAt args 1).ToString with
      | none => exact Or.inl ⟨_, rfl⟩
      | some F =>
        cases (argAt args 2).IsObject with
        | false => exact Or.inl ⟨_, rfl⟩
        | true =>
          simp only [Bool.not_true, Bool.false_eq_true, if_false, completion]
          rcases parseOptions_error_cases (argAt args 2) z with h | ⟨msg, h⟩
          · rw [h]
            exact Or.inr ⟨_, _, _, rfl⟩
          · rw [h]
            exact Or.inl ⟨msg, rfl⟩

/-- C8, the failing input. With a function as last argument and an undefined
or null first argument the callback is not called at all: the process dies at
line 119, after line 115 has set the error "First argument must be a buffer"
and before lines 150-152 would deliver it. -/
theorem Deflate_dies_without_delivery
    (C : ZopfliOptions → ZopfliFormat → List Nat → List Nat) (z : ZopfliOptions) :
    Deflate C z [Value.undefined, plainCallback] = [Event.crash] ∧
    Deflate C z [Value.null, Value.ofText "gzip", emptyObject, plainCallback]
      = [Event.crash] ∧
    Deflate C z [Value.undefined, Value.ofText "gzip", emptyObject, plainCallback]
      = [Event.crash] :=
  ⟨rfl, rfl, rfl⟩

/-- C9, the failing input. With an empty option object the engine receives the
record exactly as the storage of the uninitialised local held it on entry,
whatever that was: no default is applied. -/
theorem Deflate_empty_options_record
    (C : ZopfliOptions → ZopfliFormat → List Nat → List Nat) (z : ZopfliOptions)
    (data : List Nat) :
    Deflate C z [Buffer.New data, Value.ofText "deflate", emptyObject, plainCallback] =
      [Event.engine z ZopfliFormat.ZOPFLI_FORMAT_DEFLATE data,
       Event.call plainCallback
        [Value.null, Buffer.New (C z ZopfliFormat.ZOPFLI_FORMAT_DEFLATE data)]] := by
  rfl


/-! ## The record of `parseOptions` in general -/

/-- A block leaves the error null exactly when it was null and the value is
not wrong-typed. -/
theorem fieldStep_isNull (isType : Value → Bool) (m : String)
    (store : ZopfliOptions → Value → ZopfliOptions) (v : Value)
    (st : Value × ZopfliOptions) :
    (fieldStep isType m store v st).1.IsNull = (st.1.IsNull && !wrongValue isType v) := by
  rw [fieldStep_fst]
  cases h : st.1.IsNull <;> cases wrongValue isType v <;> simp [isNull_TypeError, h]

/-- Six conditional assignments, one per field and in declaration order, give
the record whose fields are chosen one by one. -/
theorem record_chain (c1 c2 c3 c4 c5 c6 : Bool) (x1 x2 x3 x4 x5 x6 : Int)
    (z : ZopfliOptions) :
    (let s1 := if c1 then { z with verbose := x1 } else z
     let s2 := if c2 then { s1 with verbose_more := x2 } else s1
     let s3 := if c3 then { s2 with numiterations := x3 } else s2
     let s4 := if c4 then { s3 with blocksplitting := x4 } else s3
     let s5 := if c5 then { s4 with blocksplittinglast := x5 } else s4
     if c6 then { s5 with blocksplittingmax := x6 } else s5) =
      { verbose := if c1 then x1 else z.verbose
        verbose_more := if c2 then x2 else z.verbose_more
        numiterations := if c3 then x3 else z.numiterations
        blocksplitting := if c4 then x4 else z.blocksplitting
        blocksplittinglast := if c5 then x5 else z.blocksplittinglast
        blocksplittingmax := if c6 then x6 else z.blocksplittingmax } := by
  cases c1 <;> cases c2 <;> cases c3 <;> cases c4 <;> cases c5 <;> cases c6 <;> rfl

/-- The record `parseOptions` returns, in every case: a field is assigned when
no value before it in declaration order is wrong-typed and its own value is
present and well-typed, and keeps its value otherwise. -/
theorem parseOptions_record (o : Value) (z : ZopfliOptions) :
    (parseOptions o z).2 =
      { verbose :=
          if rightValue IsBoolean (o.Get "verbose") then
            (if (o.Get "verbose").ToBoolean then 1 else 0) else z.verbose
        verbose_more :=
          if !wrongValue IsBoolean (o.Get "verbose") &&
              rightValue IsBoolean (o.Get "verbose_more") then
            (if (o.Get "verbose_more").ToBoolean then 1 else 0) else z.verbose_more
        numiterations :=
          if !wrongValue IsBoolean (o.Get "verbose") &&
              !wrongValue IsBoolean (o.Get "verbose_more") &&
              rightValue IsInt32 (o.Get "numiterations") then
            (o.Get "numiterations").ToInt32 else z.numiterations
        blocksplitting :=
          if !wrongValue IsBoolean (o.Get "verbose") &&
              !wrongValue IsBoolean (o.Get "verbose_more") &&
              !wrongValue IsInt32 (o.Get "numiterations") &&
              rightValue IsBoolean (o.Get "blocksplitting") then
            (if (o.Get "blocksplitting").ToBoolean then 1 else 0) else z.blocksplitting
        blocksplittinglast :=
          if !wrongValue IsBoolean (o.Get "verbose") &&
              !wrongValue IsBoolean (o.Get "verbose_more") &&
              !wrongValue IsInt32 (o.Get "numiterations") &&
              !wrongValue IsBoolean (o.Get "blocksplitting") &&
              rightValue IsBoolean (o.Get "blocksplittinglast") then
            (if (o.Get "blocksplittinglast").ToBoolean then 1 else 0)
          else z.blocksplittinglast
        blocksplittingmax :=
          if !wrongValue IsBoolean (o.Get "verbose") &&
              !wrongValue IsBoolean (o.Get "verbose_more") &&
              !wrongValue IsInt32 (o.Get "numiterations") &&
              !wrongValue IsBoolean (o.Get "blocksplitting") &&
              !wrongValue IsBoolean (o.Get "blocksplittinglast") &&
              rightValue IsInt32 (o.Get "blocksplittingmax") then
            (o.Get "blocksplittingmax").ToInt32 else z.blocksplittingmax } := by
  rw [parseOptions_steps]
  simp only [fieldStep_snd, fieldStep_isNull, isNull_null, Bool.true_and]
  exact record_chain _ _ _ _ _ _ _ _ _ _ _ _ z


/-- A wrong-typed value is not a present well-typed one. -/
theorem rightValue_of_wrongValue (isType : Value → Bool) (v : Value)
    (h : wrongValue isType v = true) : rightValue isType v = false := by
  unfold wrongValue at h
  unfold rightValue
  revert h
  cases v.IsUndefined <;> cases v.IsNull <;> cases isType v <;> simp

/-- The record after a rejection at declaration position `k`: a field before
`k` is assigned when its value is present (it is then well-typed), every other
field keeps its value. -/
theorem record_of_first_wrong (o : Value) (z : ZopfliOptions) (k : Nat)
    (e : String × OptionType) (hk : optionTable[k]? = some e) (hw : wrongType o e = true)
    (hfirst : ∀ i e1, i < k → optionTable[i]? = some e1 → wrongType o e1 = false)
    (j : Nat) (e2 : String × OptionType) (hj : optionTable[j]? = some e2) :
    fieldAt j (parseOptions o z).2 =
      if j < k ∧ rightValue (hasType e2.2) (o.Get e2.1) = true then
        storedValue e2.2 (o.Get e2.1)
      else fieldAt j z := by
  have hk6 : k < 6 := by
    have := (List.getElem?_eq_some.mp hk).1
    simpa [optionTable] using this
  have hj6 : j < 6 := by
    have := (List.getElem?_eq_some.mp hj).1
    simpa [optionTable] using this
  have f0 : 0 < k → wrongValue IsBoolean (o.Get "verbose") = false :=
    fun h => hfirst 0 ("verbose", OptionType.boolean) h rfl
  have f1 : 1 < k → wrongValue IsBoolean (o.Get "verbose_more") = false :=
    fun h => hfirst 1 ("verbose_more", OptionType.boolean) h rfl
  have f2 : 2 < k → wrongValue IsInt32 (o.Get "numiterations") = false :=
    fun h => hfirst 2 ("numiterations", OptionType.int32) h rfl
  have f3 : 3 < k → wrongValue IsBoolean (o.Get "blocksplitting") = false :=
    fun h => hfirst 3 ("blocksplitting", OptionType.boolean) h rfl
  have f4 : 4 < k → wrongValue IsBoolean (o.Get "blocksplittinglast") = false :=
    fun h => hfirst 4 ("blocksplittinglast", OptionType.boolean) h rfl
  have hr := rightValue_of_wrongValue (hasType e.2) (o.Get e.1) hw
  unfold wrongType at hw
  rw [parseOptions_record]
  interval_cases k <;>
    simp only [optionTable, List.getElem?_cons_zero, List.getElem?_cons_succ,
      Option.some.injEq] at hk <;>
    subst hk <;>
    simp only [hasType_boolean, hasType_int32] at hw hr <;>
    interval_cases j <;>
    simp only [optionTable, List.getElem?_cons_zero, List.getElem?_cons_succ,
      Option.some.injEq] at hj <;>
    subst hj <;>
    simp [fieldAt, hw, hr, storedValue, hasType_boolean, hasType_int32, f0, f1, f2, f3, f4]


/-- The element that `find?` returns sits at a position before which the
predicate fails everywhere. -/
theorem position_of_find {α : Type} (p : α → Bool) (l : List α) (a : α)
    (h : l.find? p = some a) :
    ∃ k : Nat, l[k]? = some a ∧ p a = true ∧
      ∀ (i : Nat) (b : α), i < k → l[i]? = some b → p b = false := by
  induction l with
  | nil => simp at h
  | cons x xs ih =>
    cases hx : p x with
    | true =>
      rw [List.find?_cons_of_pos _ hx] at h
      cases h
      exact ⟨0, by simp, hx, fun i b hi _ => absurd hi (Nat.not_lt_zero i)⟩
    | false =>
      rw [List.find?_cons_of_neg _ (by simp [hx])] at h
      obtain ⟨k, hk, hp, hfirst⟩ := ih h
      refine ⟨k + 1, by simpa using hk, hp, ?_⟩
      intro i b hi hb
      cases i with
      | zero =>
        simp only [List.getElem?_cons_zero, Option.some.injEq] at hb
        rw [← hb]; exact hx
      | succ i1 =>
        simp only [List.getElem?_cons_succ] at hb
        exact hfirst i1 b (by omega) hb

/-- Two records with the same six fields are equal. -/
theorem record_ext (r z : ZopfliOptions) (h : ∀ j, j < 6 → fieldAt j r = fieldAt j z) :
    r = z := by
  have h0 := h 0 (by decide)
  have h1 := h 1 (by decide)
  have h2 := h 2 (by decide)
  have h3 := h 3 (by decide)
  have h4 := h 4 (by decide)
  have h5 := h 5 (by decide)
  cases r; cases z
  simp only [fieldAt] at h0 h1 h2 h3 h4 h5
  simp [h0, h1, h2, h3, h4, h5]

/-- An undefined or null value is not a present well-typed one. -/
theorem rightValue_of_absent (isType : Value → Bool) (v : Value)
    (h : v = Value.undefined ∨ v = Value.null) : rightValue isType v = false := by
  rcases h with rfl | rfl <;> simp [rightValue, Value.IsUndefined, Value.IsNull]

/-- C11, counterexample. On the option map `partialOptions` (verbose true,
numiterations "fast") `parseOptions` returns a TypeError and the record is
not the record before the call: verbose has been stored. -/
theorem parseOptions_rejection_not_atomic :
    (parseOptions partialOptions zeroOptions).1
        = Value.TypeError "Wrong type for option 'numiterations'" ∧
    (parseOptions partialOptions zeroOptions).2 = ⟨1, 0, 0, 0, 0, 0⟩ ∧
    (parseOptions partialOptions zeroOptions).2 ≠ zeroOptions :=
  ⟨rfl, rfl, by decide⟩

/-- C11, amended. If `parseOptions` returns an error, it is the TypeError of the
first wrong-typed key, at a position `k`; every field at position `k` or later
equals its value before the call, a field before `k` has been assigned when
its key is present, and the record equals the record before the call when
every key before `k` is undefined or null. -/
theorem parseOptions_rejection_record (o : Value) (z : ZopfliOptions)
    (h : (parseOptions o z).1 ≠ Value.null) :
    ∃ k e, optionTable[k]? = some e ∧ wrongType o e = true ∧
      (parseOptions o z).1 = Value.TypeError (wrongTypeMessage e.1) ∧
      (∀ j e2, optionTable[j]? = some e2 →
        fieldAt j (parseOptions o z).2 =
          if j < k ∧ rightValue (hasType e2.2) (o.Get e2.1) = true then
            storedValue e2.2 (o.Get e2.1)
          else fieldAt j z) ∧
      ((∀ i e1, i < k → optionTable[i]? = some e1 →
          o.Get e1.1 = Value.undefined ∨ o.Get e1.1 = Value.null) →
        (parseOptions o z).2 = z) := by
  have herr := parseOptions_error o z
  cases hf : optionTable.find? (wrongType o) with
  | none =>
    rw [hf] at herr
    exact absurd herr h
  | some e =>
    rw [hf] at herr
    obtain ⟨k, hk, hw, hfirst⟩ := position_of_find (wrongType o) optionTable e hf
    have hrec := record_of_first_wrong o z k e hk hw hfirst
    refine ⟨k, e, hk, hw, herr, hrec, ?_⟩
    intro habs
    apply record_ext
    intro j hj
    have hlen : j < optionTable.length := by simpa [optionTable] using hj
    have hj2 : optionTable[j]? = some optionTable[j] := List.getElem?_eq_getElem hlen
    rw [hrec j _ hj2]
    by_cases hjk : j < k
    · rw [rightValue_of_absent _ _ (habs j _ hjk hj2)]
      simp
    · simp [hjk]

/-- C11, amended, at `partialOptions`: the rejection is at position 2, verbose
(position 0) has been stored and the later fields are unchanged. -/
theorem parseOptions_rejection_record_witness :
    (parseOptions partialOptions zeroOptions).1 ≠ Value.null ∧
    ∃ k e, optionTable[k]? = some e ∧ wrongType partialOptions e = true ∧
      (parseOptions partialOptions zeroOptions).1 = Value.TypeError (wrongTypeMessage e.1) ∧
      (∀ j e2, optionTable[j]? = some e2 →
        fieldAt j (parseOptions partialOptions zeroOptions).2 =
          if j < k ∧ rightValue (hasType e2.2) (partialOptions.Get e2.1) = true then
            storedValue e2.2 (partialOptions.Get e2.1)
          else fieldAt j zeroOptions) ∧
      ((∀ i e1, i < k → optionTable[i]? = some e1 →
          partialOptions.Get e1.1 = Value.undefined ∨
            partialOptions.Get e1.1 = Value.null) →
        (parseOptions partialOptions zeroOptions).2 = zeroOptions) :=
  have h : (parseOptions partialOptions zeroOptions).1 ≠ Value.null := by
    intro hc; cases hc
  ⟨h, parseOptions_rejection_record partialOptions zeroOptions h⟩

/-- C12. For every option map whose first wrong-typed field is at declaration
position `k`, every record field at a position after `k` equals its value
before the call, whatever the map holds under the later keys. -/
theorem parseOptions_frame_after_first_wrong (o : Value) (z : ZopfliOptions) (k : Nat)
    (e : String × OptionType) (hk : optionTable[k]? = some e) (hw : wrongType o e = true)
    (hfirst : ∀ i e1, i < k → optionTable[i]? = some e1 → wrongType o e1 = false)
    (j : Nat) (hkj : k < j) (hj : j < 6) :
    fieldAt j (parseOptions o z).2 = fieldAt j z := by
  have hlen : j < optionTable.length := by simpa [optionTable] using hj
  have hj2 : optionTable[j]? = some optionTable[j] := List.getElem?_eq_getElem hlen
  rw [record_of_first_wrong o z k e hk hw hfirst j _ hj2]
  have hnot : ¬ j < k := by omega
  simp [hnot]

/-- C12 at `partialOptions`, whose first wrong-typed field is numiterations at
position 2: blocksplittingmax, for which the map holds the well-typed 7,
keeps its value 0, like the other fields after position 2. -/
theorem parseOptions_frame_after_first_wrong_witness :
    wrongType partialOptions ("numiterations", OptionType.int32) = true ∧
    partialOptions.Get "blocksplittingmax" = Value.number 7 ∧
    ∀ j, 2 < j → j < 6 →
      fieldAt j (parseOptions partialOptions zeroOptions).2 = fieldAt j zeroOptions :=
  ⟨rfl, rfl, fun j hkj hj =>
    parseOptions_frame_after_first_wrong partialOptions zeroOptions 2
      ("numiterations", OptionType.int32) rfl rfl
      (by
        intro i e1 hi he
        interval_cases i <;>
          simp only [optionTable, List.getElem?_cons_zero, List.getElem?_cons_succ,
            Option.some.injEq] at he <;>
          subst he <;> rfl)
      j hkj hj⟩


/-- C13, counterexample. With the format "bzip2" and a first argument that is
not a buffer the failure is "First argument must be a buffer", not "Invalid
format"; and with a valid buffer the format string of the code units U+0167,
z, i, p, which is none of the three tokens, gives a success. -/
theorem Deflate_invalid_format_superseded :
    Deflate storeEngine zeroOptions
        [Value.number 1, Value.ofText "bzip2", emptyObject, plainCallback]
      = [Event.call plainCallback [Value.TypeError "First argument must be a buffer"]] ∧
    (barredToken ≠ cBytes "deflate" ∧ barredToken ≠ cBytes "gzip" ∧
      barredToken ≠ cBytes "zlib") ∧
    Deflate storeEngine zeroOptions
        [Buffer.New [1, 2], Value.string barredToken, emptyObject, plainCallback]
      = [Event.engine zeroOptions ZopfliFormat.ZOPFLI_FORMAT_GZIP [1, 2],
         Event.call plainCallback [Value.null, Buffer.New [1, 2]]] :=
  ⟨rfl, ⟨by decide, by decide, by decide⟩, rfl⟩

/-- C13, amended. For every call with a callback whose format token is a string
of code units below 256 outside "deflate", "gzip", "zlib": when the first
argument is a valid buffer the outcome is the failure "Invalid format",
whatever the arguments after the format are; when the first argument is no
buffer and is neither undefined nor null the outcome is the failure "First
argument must be a buffer". -/
theorem Deflate_invalid_format
    (C : ZopfliOptions → ZopfliFormat → List Nat → List Nat) (z : ZopfliOptions)
    (args : List Value) (cb : Value) (units : List Nat)
    (hlast : args.getLast? = some cb) (hcb : cb.IsFunction = true)
    (hstr : argAt args 1 = Value.string units) (hu : ∀ c ∈ units, c < 256)
    (h1 : units ≠ cBytes "deflate") (h2 : units ≠ cBytes "gzip")
    (h3 : units ≠ cBytes "zlib") :
    (Buffer.HasInstance (argAt args 0) = true →
      Deflate C z args = [Event.call cb [Value.TypeError "Invalid format"]]) ∧
    (Buffer.HasInstance (argAt args 0) = false →
      argAt args 0 ≠ Value.undefined → argAt args 0 ≠ Value.null →
      Deflate C z args
        = [Event.call cb [Value.TypeError "First argument must be a buffer"]]) := by
  constructor
  · intro hbuf
    rw [Deflate_of_callback C z args cb hlast hcb (toObject_of_hasInstance _ hbuf)]
    have hres : resolveFormat units = none := by
      rw [resolveFormat_exact units hu]
      simp only [if_neg h1, if_neg h2, if_neg h3]
    simp only [hbuf, hstr, Value.IsString, Value.ToString, hres, Bool.not_true,
      Bool.false_eq_true, if_false]
  · intro hbuf hnu hnn
    rw [Deflate_of_callback C z args cb hlast hcb ((toObject_isSome_iff _).mpr ⟨hnu, hnn⟩)]
    simp only [hbuf, Bool.not_false, if_true]

/-- C13, amended, at "bzip2": with a valid buffer the failure is "Invalid
format", with the wrong-typed options of `scenarioD` and also when the third
argument is no object at all; with the number 1 as first argument the failure
is "First argument must be a buffer". -/
theorem Deflate_invalid_format_witness :
    Deflate storeEngine zeroOptions
        [Buffer.New [1], Value.ofText "bzip2", scenarioD, plainCallback]
      = [Event.call plainCallback [Value.TypeError "Invalid format"]] ∧
    Deflate storeEngine zeroOptions
        [Buffer.New [1], Value.ofText "bzip2", Value.number 3, plainCallback]
      = [Event.call plainCallback [Value.TypeError "Invalid format"]] ∧
    Deflate storeEngine zeroOptions
        [Value.number 1, Value.ofText "bzip2", scenarioD, plainCallback]
      = [Event.call plainCallback [Value.TypeError "First argument must be a buffer"]] :=
  ⟨(Deflate_invalid_format storeEngine zeroOptions
      [Buffer.New [1], Value.ofText "bzip2", scenarioD, plainCallback] plainCallback
      (cBytes "bzip2") rfl rfl rfl (by decide) (by decide) (by decide) (by decide)).1 rfl,
   (Deflate_invalid_format storeEngine zeroOptions
      [Buffer.New [1], Value.ofText "bzip2", Value.number 3, plainCallback] plainCallback
      (cBytes "bzip2") rfl rfl rfl (by decide) (by decide) (by decide) (by decide)).1 rfl,
   (Deflate_invalid_format storeEngine zeroOptions
      [Value.number 1, Value.ofText "bzip2", scenarioD, plainCallback] plainCallback
      (cBytes "bzip2") rfl rfl rfl (by decide) (by decide) (by decide) (by decide)).2 rfl
      (by intro h; cases h) (by intro h; cases h)⟩

/-- C15. On every successful call (last argument a function, no check fails)
the first argument is a buffer, the second resolves to a format, and the
buffer delivered to the callback holds exactly the engine's output on the
parsed record, that format and the bytes of the input buffer. -/
theorem Deflate_result_is_engine_output
    (C : ZopfliOptions → ZopfliFormat → List Nat → List Nat) (z : ZopfliOptions)
    (args : List Value) (cb : Value)
    (hlast : args.getLast? = some cb) (hcb : cb.IsFunction = true)
    (hpass : firstFailure args = none) :
    ∃ data props format,
      argAt args 0 = Value.object (ObjectKind.buffer data) props ∧
      resolveFormat (argAt args 1).ToString = some format ∧
      Deflate C z args =
        [Event.engine (parseOptions (argAt args 2) z).2 format data,
         Event.call cb
          [Value.null, Buffer.New (C (parseOptions (argAt args 2) z).2 format data)]] := by
  rw [Deflate_of_callback C z args cb hlast hcb
    (toObject_of_hasInstance _ (hasInstance_of_firstFailure_none args hpass))]
  unfold firstFailure at hpass
  cases h0 : Buffer.HasInstance (argAt args 0) with
  | false => simp [h0] at hpass
  | true =>
    cases h1 : (argAt args 1).IsString with
    | false => simp [h0, h1] at hpass
    | true =>
      cases h2 : resolveFormat (argAt args 1).ToString with
      | none => simp [h0, h1, h2] at hpass
      | some F =>
        cases h3 : (argAt args 2).IsObject with
        | false => simp [h0, h1, h2, h3] at hpass
        | true =>
          simp only [h0, h1, h2, h3, Bool.not_true, Bool.false_eq_true, if_false,
            Option.isNone_some, Option.map_eq_none'] at hpass
          have herr := parseOptions_error (argAt args 2) z
          rw [hpass] at herr
          simp only at herr
          obtain ⟨data, props, hb⟩ : ∃ data props,
              argAt args 0 = Value.object (ObjectKind.buffer data) props := by
            cases hv : argAt args 0 with
            | object kind props =>
              cases kind with
              | buffer data => exact ⟨data, props, rfl⟩
              | _ => rw [hv] at h0; cases h0
            | _ => rw [hv] at h0; cases h0
          refine ⟨data, props, F, hb, rfl, ?_⟩
          simp [completion, herr, isNull_null, hb, Buffer.Data]

/-- C15 at the call `zlibCall` with the engine `optionEngine`: the delivered
buffer is the engine's output on the parsed record (blocksplittingmax 9),
Zlib and the input bytes 1, 2, 3. -/
theorem Deflate_result_is_engine_output_witness :
    firstFailure zlibCall = none ∧
    Deflate optionEngine zeroOptions zlibCall =
      [Event.engine ⟨0, 0, 0, 0, 0, 9⟩ ZopfliFormat.ZOPFLI_FORMAT_ZLIB [1, 2, 3],
       Event.call plainCallback
        [Value.null,
         Buffer.New (optionEngine ⟨0, 0, 0, 0, 0, 9⟩ ZopfliFormat.ZOPFLI_FORMAT_ZLIB
          [1, 2, 3])]] := by
  obtain ⟨d, p, F, h0, h1, h2⟩ :=
    Deflate_result_is_engine_output optionEngine zeroOptions zlibCall plainCallback
      rfl rfl rfl
  have e0 : Value.object (ObjectKind.buffer [1, 2, 3]) []
      = Value.object (ObjectKind.buffer d) p := h0
  injection e0 with ek ep
  injection ek with ed
  subst ed
  have e1 : some ZopfliFormat.ZOPFLI_FORMAT_ZLIB = some F := h1
  injection e1 with eF
  subst eF
  exact ⟨rfl, h2⟩


/-- C14. For every argument list, `Deflate` calls the engine exactly once when
every validation passes (callback, buffer, format, options object, option
fields) and not at all otherwise; in particular a list of effects with a
thrown exception or a callback call with an error alone has no engine call. -/
theorem Deflate_engine_calls
    (C : ZopfliOptions → ZopfliFormat → List Nat → List Nat) (z : ZopfliOptions)
    (args : List Value) :
    engineCalls (Deflate C z args) = (if allChecksPass args = true then 1 else 0) ∧
    ((Deflate C z args).any isThrowOrFailure = true →
      engineCalls (Deflate C z args) = 0) := by
  cases hlast : args.getLast? with
  | none =>
    have hnil : args = [] := by
      cases args with
      | nil => rfl
      | cons a rest => simp [List.getLast?_cons] at hlast
    subst hnil
    exact ⟨rfl, fun _ => rfl⟩
  | some cb =>
    cases hcb : cb.IsFunction with
    | false =>
      rw [Deflate_of_no_callback C z args cb hlast hcb]
      refine ⟨?_, fun _ => rfl⟩
      simp [allChecksPass, hlast, hcb, engineCalls, isEngineCall]
    | true =>
      cases hto : (argAt args 0).ToObject with
      | none =>
        rw [Deflate_of_no_object C z args cb hlast hcb hto]
        refine ⟨?_, fun _ => rfl⟩
        simp [allChecksPass, firstFailure, hasInstance_of_no_object _ hto, engineCalls,
          isEngineCall]
      | some obj =>
      rw [Deflate_of_callback C z args cb hlast hcb (by rw [hto]; rfl)]
      unfold allChecksPass firstFailure
      simp only [hlast, hcb, Bool.true_and]
      cases h0 : Buffer.HasInstance (argAt args 0) with
      | false => exact ⟨rfl, fun _ => rfl⟩
      | true =>
        cases h1 : (argAt args 1).IsString with
        | false => exact ⟨rfl, fun _ => rfl⟩
        | true =>
          cases h2 : resolveFormat (argAt args 1).ToString with
          | none => exact ⟨rfl, fun _ => rfl⟩
          | some F =>
            cases h3 : (argAt args 2).IsObject with
            | false => exact ⟨rfl, fun _ => rfl⟩
            | true =>
              have herr := parseOptions_error (argAt args 2) z
              cases hf : optionTable.find? (wrongType (argAt args 2)) with
              | none =>
                rw [hf] at herr
                simp only at herr
                simp [completion, herr, isNull_null, engineCalls, isEngineCall,
                  isThrowOrFailure]
              | some e =>
                rw [hf] at herr
                simp only at herr
                simp [completion, herr, isNull_TypeError, engineCalls, isEngineCall]

/-- C14 at four calls: one engine call in the call `zlibCall`, none when an
option is wrong-typed, none when the last argument is no function, none on
the empty argument list. -/
theorem Deflate_engine_calls_witness :
    engineCalls (Deflate storeEngine zeroOptions zlibCall) = 1 ∧
    engineCalls (Deflate storeEngine zeroOptions
      [Buffer.New [1], Value.ofText "zlib", scenarioD, plainCallback]) = 0 ∧
    engineCalls (Deflate storeEngine zeroOptions
      [Buffer.New [1], Value.ofText "zlib", emptyObject]) = 0 ∧
    engineCalls (Deflate storeEngine zeroOptions []) = 0 :=
  ⟨(Deflate_engine_calls storeEngine zeroOptions zlibCall).1.trans rfl,
   (Deflate_engine_calls storeEngine zeroOptions _).2 rfl,
   (Deflate_engine_calls storeEngine zeroOptions _).2 rfl,
   (Deflate_engine_calls storeEngine zeroOptions []).1.trans rfl⟩


/-- `parseOptions` reads the option map through the six recognized keys only. -/
theorem parseOptions_congr (o1 o2 : Value) (z : ZopfliOptions)
    (h1 : o1.Get "verbose" = o2.Get "verbose")
    (h2 : o1.Get "verbose_more" = o2.Get "verbose_more")
    (h3 : o1.Get "numiterations" = o2.Get "numiterations")
    (h4 : o1.Get "blocksplitting" = o2.Get "blocksplitting")
    (h5 : o1.Get "blocksplittinglast" = o2.Get "blocksplittinglast")
    (h6 : o1.Get "blocksplittingmax" = o2.Get "blocksplittingmax") :
    parseOptions o1 z = parseOptions o2 z := by
  rw [parseOptions_steps, parseOptions_steps, h1, h2, h3, h4, h5, h6]

/-- Agreement on the table's keys, key by key. -/
theorem get_eq_of_table (o1 o2 : Value)
    (h : ∀ e ∈ optionTable, o1.Get e.1 = o2.Get e.1) :
    o1.Get "verbose" = o2.Get "verbose" ∧
    o1.Get "verbose_more" = o2.Get "verbose_more" ∧
    o1.Get "numiterations" = o2.Get "numiterations" ∧
    o1.Get "blocksplitting" = o2.Get "blocksplitting" ∧
    o1.Get "blocksplittinglast" = o2.Get "blocksplittinglast" ∧
    o1.Get "blocksplittingmax" = o2.Get "blocksplittingmax" :=
  ⟨h ("verbose", OptionType.boolean) (by simp [optionTable]),
   h ("verbose_more", OptionType.boolean) (by simp [optionTable]),
   h ("numiterations", OptionType.int32) (by simp [optionTable]),
   h ("blocksplitting", OptionType.boolean) (by simp [optionTable]),
   h ("blocksplittinglast", OptionType.boolean) (by simp [optionTable]),
   h ("blocksplittingmax", OptionType.int32) (by simp [optionTable])⟩

/-- C16, the failing input. Two calls with the same input bytes, the same
format token "deflate", the same empty option map and the same deterministic
engine deliver different result buffers when the storage of the
uninitialised record held different values on entry. -/
theorem Deflate_depends_on_storage :
    Deflate optionEngine zeroOptions
        [Buffer.New [1, 2], Value.ofText "deflate", emptyObject, plainCallback]
      = [Event.engine zeroOptions ZopfliFormat.ZOPFLI_FORMAT_DEFLATE [1, 2],
         Event.call plainCallback [Value.null, Buffer.New [0, 1, 2]]] ∧
    Deflate optionEngine documentedDefaults
        [Buffer.New [1, 2], Value.ofText "deflate", emptyObject, plainCallback]
      = [Event.engine documentedDefaults ZopfliFormat.ZOPFLI_FORMAT_DEFLATE [1, 2],
         Event.call plainCallback [Value.null, Buffer.New [15, 1, 2]]] ∧
    Deflate optionEngine zeroOptions
        [Buffer.New [1, 2], Value.ofText "deflate", emptyObject, plainCallback]
      ≠ Deflate optionEngine documentedDefaults
        [Buffer.New [1, 2], Value.ofText "deflate", emptyObject, plainCallback] := by
  refine ⟨rfl, rfl, ?_⟩
  intro h
  have h2 : [Event.engine zeroOptions ZopfliFormat.ZOPFLI_FORMAT_DEFLATE [1, 2],
         Event.call plainCallback [Value.null, Buffer.New [0, 1, 2]]]
      = [Event.engine documentedDefaults ZopfliFormat.ZOPFLI_FORMAT_DEFLATE [1, 2],
         Event.call plainCallback [Value.null, Buffer.New [15, 1, 2]]] := h
  simp [zeroOptions, documentedDefaults] at h2

/-- C17. Two option maps that agree on the six recognized keys give the same
result of `parseOptions`, error and record, from the same initial record;
what they hold under other keys plays no part. -/
theorem parseOptions_ignores_other_keys (o1 o2 : Value) (z : ZopfliOptions)
    (h : ∀ e ∈ optionTable, o1.Get e.1 = o2.Get e.1) :
    parseOptions o1 z = parseOptions o2 z := by
  obtain ⟨h1, h2, h3, h4, h5, h6⟩ := get_eq_of_table o1 o2 h
  exact parseOptions_congr o1 o2 z h1 h2 h3 h4 h5 h6

/-- C17 at `goodOptions` and `extraOptions`, which adds the unrecognized keys
level and iterations: the same result, without error. -/
theorem parseOptions_ignores_other_keys_witness :
    (∀ e ∈ optionTable, extraOptions.Get e.1 = goodOptions.Get e.1) ∧
    parseOptions extraOptions zeroOptions = parseOptions goodOptions zeroOptions ∧
    (parseOptions extraOptions zeroOptions).1 = Value.null :=
  have h : ∀ e ∈ optionTable, extraOptions.Get e.1 = goodOptions.Get e.1 := by
    intro e he
    simp only [optionTable, List.mem_cons, List.mem_singleton, List.not_mem_nil,
      or_false] at he
    rcases he with rfl | rfl | rfl | rfl | rfl | rfl <;> rfl
  ⟨h, parseOptions_ignores_other_keys extraOptions goodOptions zeroOptions h, rfl⟩

/-- C18. In the three-argument call (buffer, format token, callback) the
callback is the third argument and is what `parseOptions` validates: the
effects equal those of the four-argument call (buffer, format, O, callback)
for every object O that holds the callback's values under the six recognized
keys. -/
theorem Deflate_callback_as_options
    (C : ZopfliOptions → ZopfliFormat → List Nat → List Nat) (z : ZopfliOptions)
    (data : List Nat) (props : List (String × Value)) (F : ZopfliFormat) (O cb : Value)
    (hcb : cb.IsFunction = true) (hO : O.IsObject = true)
    (h : ∀ e ∈ optionTable, O.Get e.1 = cb.Get e.1) :
    Deflate C z
        [Value.object (ObjectKind.buffer data) props, Value.ofText (formatToken F), cb]
      = Deflate C z
        [Value.object (ObjectKind.buffer data) props, Value.ofText (formatToken F), O, cb] := by
  have hobj : cb.IsObject = true := by
    cases cb with
    | object k p => rfl
    | _ => cases hcb
  obtain ⟨h1, h2, h3, h4, h5, h6⟩ := get_eq_of_table O cb h
  have hparse := parseOptions_congr O cb z h1 h2 h3 h4 h5 h6
  rw [Deflate_of_callback C z
    [Value.object (ObjectKind.buffer data) props, Value.ofText (formatToken F), cb] cb rfl hcb
      rfl,
    Deflate_of_callback C z
    [Value.object (ObjectKind.buffer data) props, Value.ofText (formatToken F), O, cb] cb
      rfl hcb rfl]
  have a2 : argAt [Value.object (ObjectKind.buffer data) props,
      Value.ofText (formatToken F), cb] 2 = cb := rfl
  have b2 : argAt [Value.object (ObjectKind.buffer data) props,
      Value.ofText (formatToken F), O, cb] 2 = O := rfl
  have a0 : argAt [Value.object (ObjectKind.buffer data) props,
      Value.ofText (formatToken F), cb] 0 = Value.object (ObjectKind.buffer data) props := rfl
  have b0 : argAt [Value.object (ObjectKind.buffer data) props,
      Value.ofText (formatToken F), O, cb] 0 = Value.object (ObjectKind.buffer data) props :=
    rfl
  have a1 : argAt [Value.object (ObjectKind.buffer data) props,
      Value.ofText (formatToken F), cb] 1 = Value.ofText (formatToken F) := rfl
  have b1 : argAt [Value.object (ObjectKind.buffer data) props,
      Value.ofText (formatToken F), O, cb] 1 = Value.ofText (formatToken F) := rfl
  rw [a0, a1, a2, b0, b1, b2, hparse, hobj, hO]

/-- C18 at the callback `fastCallback`, which carries numiterations = "fast",
and the option map with that one key: both calls deliver the failure "Wrong
type for option 'numiterations'". -/
theorem Deflate_callback_as_options_witness :
    Deflate storeEngine zeroOptions [Buffer.New [1], Value.ofText "gzip", fastCallback]
      = Deflate storeEngine zeroOptions
        [Buffer.New [1], Value.ofText "gzip",
          singleOption "numiterations" (Value.ofText "fast"), fastCallback] ∧
    Deflate storeEngine zeroOptions
        [Buffer.New [1], Value.ofText "gzip",
          singleOption "numiterations" (Value.ofText "fast"), fastCallback]
      = [Event.call fastCallback
          [Value.TypeError "Wrong type for option 'numiterations'"]] :=
  ⟨Deflate_callback_as_options storeEngine zeroOptions [1] []
      ZopfliFormat.ZOPFLI_FORMAT_GZIP (singleOption "numiterations" (Value.ofText "fast"))
      fastCallback rfl rfl (by
        intro e he
        simp only [optionTable, List.mem_cons, List.mem_singleton, List.not_mem_nil,
          or_false] at he
        rcases he with rfl | rfl | rfl | rfl | rfl | rfl <;> rfl),
   rfl⟩

end Zopfli
